import Mathlib

/-!
# STag marker decoding: constructor validation, frame orchestration, sampling and geometry table

A shallow embedding of `src/Stag.cpp`.

* Finite `double` values are read over an ordered field `α` (the theorems about the geometry
  table take `α = ℝ` with `Real.cos` and `Real.sin`); decimal literals denote their exact decimal
  value. The quotient of two such values is a `Double α`: a number when the divisor is not zero,
  and the NaN or signed infinity IEEE 754 division yields when it is.
* `int` values are `Int`; `unsigned char` samples are `Nat` reduced `% 256` when stored.
* `std::vector` is `List`, a loop `for (int i = 0; i < n; i++)` is `forLoop n`.
* A C++ member function that may throw returns the exception (if any) together with the
  object state at the point where it stopped.
* Collaborators whose code is not in `Stag.cpp` (quad detector, decoder, pose refiner, OpenCV,
  the pixel reader) are fields of `Externals`.
-/

set_option autoImplicit false
set_option linter.dupNamespace false

namespace STag

/-! ## Data model -/

/-- A `cv::Mat(3, 1, CV_64FC1)`: the three entries `at<double>(0)`, `at<double>(1)`,
`at<double>(2)` of a homogeneous 2D point. -/
structure Mat31 (α : Type) where
  at0 : α
  at1 : α
  at2 : α
deriving DecidableEq

/-- A 3×3 `cv::Mat` of doubles (the homography `Quad::H`), row major. -/
structure Mat33 (α : Type) where
  h00 : α
  h01 : α
  h02 : α
  h10 : α
  h11 : α
  h12 : α
  h20 : α
  h21 : α
  h22 : α
deriving DecidableEq

/-- The matrix product `H * p` of a 3×3 matrix with a 3×1 column. -/
def Mat33.mulVec {α : Type} [Add α] [Mul α] (H : Mat33 α) (p : Mat31 α) : Mat31 α :=
  { at0 := H.h00 * p.at0 + H.h01 * p.at1 + H.h02 * p.at2
    at1 := H.h10 * p.at0 + H.h11 * p.at1 + H.h12 * p.at2
    at2 := H.h20 * p.at0 + H.h21 * p.at1 + H.h22 * p.at2 }

/-- A default-constructed `cv::Mat` standing in a `vector<Mat>(n)` before it is assigned. -/
def Mat31.empty {α : Type} [Zero α] : Mat31 α := ⟨0, 0, 0⟩

/-- A `cv::Point2d`; `α` is the type of its two coordinates. -/
structure Point2d (α : Type) where
  x : α
  y : α
deriving DecidableEq

/-- A `double` that need not be finite: a number of `α`, one of the two infinities, or NaN. -/
inductive Double (α : Type) where
  | finite (v : α)
  | posInf
  | negInf
  | nan
deriving DecidableEq

/-- The `double` division `x / w` of two finite doubles (IEEE 754). For `w ≠ 0` it is the
quotient. For a zero divisor it is NaN when `x` is zero too, and otherwise an infinity, positive
exactly when the sign bit of `x` equals the sign bit of the zero divisor. IEEE 754 has a zero of
each sign and `α` has one zero, so the sign bit of the divisor is the argument `wSignBit`. -/
def Double.div {α : Type} [LinearOrderedField α] (x w : α) (wSignBit : Bool) : Double α :=
  if w = 0 then
    if x = 0 then Double.nan
    else if decide (x < 0) = wSignBit then Double.posInf
    else Double.negInf
  else Double.finite (x / w)

/-- The loop `for (int i = 0; i < n; i++) body(i)` acting on a state. -/
def forLoop {σ : Type} (n : Nat) (body : Nat → σ → σ) (init : σ) : σ :=
  (List.range n).foldl (fun s i => body i s) init

/-- The macro `HALF_PI` of `Stag.cpp`, line 5. -/
def HALF_PI {α : Type} [Field α] : α := 1.570796326794897

/-- The geometry table: the members `codeLocs`, `blackLocs`, `whiteLocs` of `Stag`. -/
structure CodeLocations (α : Type) where
  codeLocs : List (Mat31 α)
  blackLocs : List (Mat31 α)
  whiteLocs : List (Mat31 α)

/-- `Stag::createMatFromPolarCoords`. -/
def createMatFromPolarCoords {α : Type} [Field α] (cos sin : α → α)
    (radius radians circleRadius : α) : Mat31 α :=
  { at0 := 0.5 + cos radians * radius * (circleRadius / 0.5)
    at1 := 0.5 - sin radians * radius * (circleRadius / 0.5)
    at2 := 1 }

/-- The body of the quadrant loop of `Stag::fillCodeLocations` (lines 133-147) for quadrant `i`. -/
def fillQuadrant {α : Type} [Field α] (cos sin : α → α) (innerCircleRadius : α) (i : Nat)
    (codeLocs : List (Mat31 α)) : List (Mat31 α) :=
  codeLocs
    |>.set (0 + i * 12) (createMatFromPolarCoords cos sin 0.088363142525988 (0.785398163397448 + i * HALF_PI) innerCircleRadius)
    |>.set (1 + i * 12) (createMatFromPolarCoords cos sin 0.206935928182607 (0.459275804122858 + i * HALF_PI) innerCircleRadius)
    |>.set (2 + i * 12) (createMatFromPolarCoords cos sin 0.206935928182607 (HALF_PI - 0.459275804122858 + i * HALF_PI) innerCircleRadius)
    |>.set (3 + i * 12) (createMatFromPolarCoords cos sin 0.313672146827381 (0.200579720495241 + i * HALF_PI) innerCircleRadius)
    |>.set (4 + i * 12) (createMatFromPolarCoords cos sin 0.327493143484516 (0.591687617505840 + i * HALF_PI) innerCircleRadius)
    |>.set (5 + i * 12) (createMatFromPolarCoords cos sin 0.327493143484516 (HALF_PI - 0.591687617505840 + i * HALF_PI) innerCircleRadius)
    |>.set (6 + i * 12) (createMatFromPolarCoords cos sin 0.313672146827381 (HALF_PI - 0.200579720495241 + i * HALF_PI) innerCircleRadius)
    |>.set (7 + i * 12) (createMatFromPolarCoords cos sin 0.437421957035861 (0.145724938287167 + i * HALF_PI) innerCircleRadius)
    |>.set (8 + i * 12) (createMatFromPolarCoords cos sin 0.437226762361658 (0.433363129825345 + i * HALF_PI) innerCircleRadius)
    |>.set (9 + i * 12) (createMatFromPolarCoords cos sin 0.430628029742607 (0.785398163397448 + i * HALF_PI) innerCircleRadius)
    |>.set (10 + i * 12) (createMatFromPolarCoords cos sin 0.437226762361658 (HALF_PI - 0.433363129825345 + i * HALF_PI) innerCircleRadius)
    |>.set (11 + i * 12) (createMatFromPolarCoords cos sin 0.437421957035861 (HALF_PI - 0.145724938287167 + i * HALF_PI) innerCircleRadius)

/-- `Stag::fillCodeLocations`: the three tables it writes. -/
def fillCodeLocations {α : Type} [Field α] (cos sin : α → α) : CodeLocations α :=
  -- code circles are located in a circle with radius outerCircleRadius
  let outerCircleRadius : α := 0.4
  let innerCircleRadius : α := outerCircleRadius * 0.9
  let codeLocs : List (Mat31 α) := List.replicate 48 Mat31.empty
  let codeLocs := forLoop 4 (fillQuadrant cos sin innerCircleRadius) codeLocs
  let borderDist : α := 0.045
  let blackLocs : List (Mat31 α) := List.replicate 12 Mat31.empty
  let whiteLocs : List (Mat31 α) := List.replicate 12 Mat31.empty
  let blackLocs := blackLocs
    |>.set 0 ⟨borderDist, borderDist * 3, 1⟩
    |>.set 1 ⟨borderDist * 2, borderDist * 2, 1⟩
    |>.set 2 ⟨borderDist * 3, borderDist, 1⟩
    |>.set 3 ⟨1 - 3 * borderDist, borderDist, 1⟩
    |>.set 4 ⟨1 - 2 * borderDist, borderDist * 2, 1⟩
    |>.set 5 ⟨1 - borderDist, borderDist * 3, 1⟩
    |>.set 6 ⟨1 - borderDist, 1 - 3 * borderDist, 1⟩
    |>.set 7 ⟨1 - 2 * borderDist, 1 - 2 * borderDist, 1⟩
    |>.set 8 ⟨1 - 3 * borderDist, 1 - borderDist, 1⟩
    |>.set 9 ⟨borderDist * 3, 1 - borderDist, 1⟩
    |>.set 10 ⟨borderDist * 2, 1 - 2 * borderDist, 1⟩
    |>.set 11 ⟨borderDist, 1 - 3 * borderDist, 1⟩
  let whiteLocs := whiteLocs
    |>.set 0 ⟨0.25, -borderDist, 1⟩
    |>.set 1 ⟨0.5, -borderDist, 1⟩
    |>.set 2 ⟨0.75, -borderDist, 1⟩
    |>.set 3 ⟨1 + borderDist, 0.25, 1⟩
    |>.set 4 ⟨1 + borderDist, 0.5, 1⟩
    |>.set 5 ⟨1 + borderDist, 0.75, 1⟩
    |>.set 6 ⟨0.75, 1 + borderDist, 1⟩
    |>.set 7 ⟨0.5, 1 + borderDist, 1⟩
    |>.set 8 ⟨0.25, 1 + borderDist, 1⟩
    |>.set 9 ⟨-borderDist, 0.75, 1⟩
    |>.set 10 ⟨-borderDist, 0.5, 1⟩
    |>.set 11 ⟨-borderDist, 0.25, 1⟩
  { codeLocs := codeLocs, blackLocs := blackLocs, whiteLocs := whiteLocs }

/-- The polar radius of the `k`-th code point of a quadrant (first argument of the `k`-th call
in the loop body). -/
def codeRadius {α : Type} [Field α] (k : Nat) : α :=
  match k with
  | 0 => 0.088363142525988
  | 1 => 0.206935928182607
  | 2 => 0.206935928182607
  | 3 => 0.313672146827381
  | 4 => 0.327493143484516
  | 5 => 0.327493143484516
  | 6 => 0.313672146827381
  | 7 => 0.437421957035861
  | 8 => 0.437226762361658
  | 9 => 0.430628029742607
  | 10 => 0.437226762361658
  | _ => 0.437421957035861

/-- The polar angle of the `k`-th code point of quadrant 0 (second argument of the `k`-th call
in the loop body, without the `i * HALF_PI` term). -/
def codeAngle {α : Type} [Field α] (k : Nat) : α :=
  match k with
  | 0 => 0.785398163397448
  | 1 => 0.459275804122858
  | 2 => HALF_PI - 0.459275804122858
  | 3 => 0.200579720495241
  | 4 => 0.591687617505840
  | 5 => HALF_PI - 0.591687617505840
  | 6 => HALF_PI - 0.200579720495241
  | 7 => 0.145724938287167
  | 8 => 0.433363129825345
  | 9 => 0.785398163397448
  | 10 => HALF_PI - 0.433363129825345
  | _ => HALF_PI - 0.145724938287167

/-! ## Collaborators and orchestrator state -/

/-- Modelled from the spec: the class `Quad` (declared in `Quad.h`, not part of `Stag.cpp`):
"four corner points in image space plus a homography matrix `H` (3×3, unit square → image)". -/
structure Quad (α : Type) where
  corners : List (Point2d α)
  H : Mat33 α
deriving DecidableEq

/-- Modelled from the spec: the class `Marker` (declared in `Marker.h`, not part of `Stag.cpp`):
"an accepted detection — owns its source Quad, a decoded integer identifier"; built by
`Marker marker(quad, id)`. -/
structure Marker (α : Type) where
  quad : Quad α
  id : Int
deriving DecidableEq

/-- Modelled from the spec: the class `Decoder` (declared in `Decoder.h`, not part of `Stag.cpp`):
"configured once at construction with a library Hamming-distance class"; built by
`Decoder(libraryHD)`. -/
structure Decoder where
  libraryHD : Int
deriving DecidableEq

/-- The type `Codeword` (a `std::bitset<48>`): the bits in index order. -/
abbrev Codeword := List Bool

/-- The colour conversion codes passed to `cv::cvtColor`. -/
inductive ColorConversionCode where
  | COLOR_BGR2GRAY
  | COLOR_BGRA2GRAY
deriving DecidableEq

/-- The operations `Stag.cpp` calls but does not define. `Image` is `cv::Mat` used as an image,
`QD` the state of the `QuadDetector`, `ED` the state of the `EDInterface`. -/
structure Externals (α Image QD ED : Type) where
  /-- The method `cv::Mat::channels`. -/
  channels : Image → Int
  /-- The function `cv::cvtColor(src, dst, code)`: the value written to `dst`. -/
  cvtColor : Image → ColorConversionCode → Image
  /-- A default-constructed `cv::Mat` (the member `image` before the first frame). -/
  emptyImage : Image
  /-- The constructor `QuadDetector()`. -/
  newQuadDetector : QD
  /-- A default-constructed `EDInterface`. -/
  newEDInterface : ED
  /-- The method `QuadDetector::detectQuads(image, &edInterface)`: the detector and the edge
  interface after the call. -/
  detectQuads : QD → Image → ED → QD × ED
  /-- The method `QuadDetector::getQuads`. -/
  getQuads : QD → List (Quad α)
  /-- The method `Quad::estimateHomography`: the quad after the call. -/
  estimateHomography : Quad α → Quad α
  /-- The sign bit of the third entry of the `double` product `H * p` (`cv::Mat` product); it
  matters only when that entry is a zero. -/
  signBitW : Mat33 α → Mat31 α → Bool
  /-- The function `readPixelSafeBilinear(image, p)` of `utility.h`. -/
  readPixelSafeBilinear : Image → Point2d (Double α) → Nat
  /-- The threshold `cv::threshold` selects under `THRESH_OTSU`. -/
  otsu : List Nat → Nat
  /-- The method `Decoder::decode(c, errorCorrection, id, shift)`: `some (id, shift)` when it
  returns `true`, `none` when it returns `false`. -/
  decode : Decoder → Codeword → Int → Option (Int × Int)
  /-- The method `Marker::shiftCorners2(shift)`: the marker after the call. -/
  shiftCorners2 : Marker α → Int → Marker α
  /-- The method `PoseRefiner::refineMarkerPose(&edInterface, marker)`: the marker after the
  call. -/
  refineMarkerPose : ED → Marker α → Marker α

/-- The data members of the class `Stag` that `Stag.cpp` reads or writes. -/
structure Stag (α Image QD ED : Type) where
  errorCorrection : Int
  quadDetector : QD
  edInterface : ED
  decoder : Decoder
  image : Image
  markers : List (Marker α)
  falseCandidates : List (Quad α)
  codeLocs : List (Mat31 α)
  blackLocs : List (Mat31 α)
  whiteLocs : List (Mat31 α)

/-! ## Constructor -/

/-- The set `possibleHDs` of the constructor. -/
def possibleHDs : List Int := [11, 13, 15, 17, 19, 21, 23]

/-- The exception message for an invalid library HD. -/
def invalidLibraryHD (libraryHD : Int) : String :=
  "Invalid library HD " ++ toString libraryHD ++ ". Possible values are: [11, 13, 15, 17, 19, 21, 23]"

/-- The exception message for an invalid error correction value. -/
def invalidErrorCorrection (errorCorrection libraryHD : Int) : String :=
  "Invalid error correction value " ++ toString errorCorrection ++ " for library HD " ++
    toString libraryHD ++ ". Error correction needs to be in range 0 <= HD <= (HD-1)/2."

/-- The constructor `Stag::Stag(libraryHD, inErrorCorrection)`: `Except.error msg` when it throws
`std::invalid_argument(msg)`, the constructed object otherwise. The `int` division `/ 2`
truncates (`Int.tdiv`). -/
def Stag.Stag {α Image QD ED : Type} [Field α] (cos sin : α → α) (E : Externals α Image QD ED)
    (libraryHD inErrorCorrection : Int) : Except String (Stag α Image QD ED) :=
  let errorCorrection := inErrorCorrection
  -- check libraryHD
  if possibleHDs.count libraryHD = 0 then
    Except.error (invalidLibraryHD libraryHD)
  else
    -- if errorCorrection set to -1, take max possible value for libraryHD
    let errorCorrection :=
      if errorCorrection = -1 then (libraryHD - 1).tdiv 2 else errorCorrection
    -- check errorCorrection
    if inErrorCorrection > (libraryHD - 1).tdiv 2 ∨ errorCorrection < 0 then
      Except.error (invalidErrorCorrection errorCorrection libraryHD)
    else
      let locs := fillCodeLocations cos sin
      Except.ok
        { errorCorrection := errorCorrection
          quadDetector := E.newQuadDetector
          edInterface := E.newEDInterface
          decoder := Decoder.mk libraryHD
          image := E.emptyImage
          markers := []
          falseCandidates := []
          codeLocs := locs.codeLocs
          blackLocs := locs.blackLocs
          whiteLocs := locs.whiteLocs }

/-! ## Sampling -/

/-- The expression `Point2d(projectedPoint.at<double>(0) / projectedPoint.at<double>(2),
projectedPoint.at<double>(1) / projectedPoint.at<double>(2))` for `projectedPoint = H * p`;
`wSignBit` is the sign bit of `projectedPoint.at<double>(2)`. -/
def projectPoint {α : Type} [LinearOrderedField α] (H : Mat33 α) (p : Mat31 α)
    (wSignBit : Bool) : Point2d (Double α) :=
  let projectedPoint := H.mulVec p
  { x := Double.div projectedPoint.at0 projectedPoint.at2 wSignBit
    y := Double.div projectedPoint.at1 projectedPoint.at2 wSignBit }

/-- Modelled from the spec: `cv::threshold(src, dst, 0, maxval, THRESH_OTSU + THRESH_BINARY_INV)`
(OpenCV, not part of `Stag.cpp`): a single global threshold is chosen over the whole sample
population (`otsu`), and "samples darker than threshold map to" `maxval`, "lighter map to `0`";
a sample equal to the threshold is not lighter than it. -/
def threshold_OTSU_BINARY_INV (otsu : List Nat → Nat) (src : List Nat) (maxval : Nat) :
    List Nat :=
  let thresh := otsu src
  src.map (fun v => if v > thresh then 0 else maxval)

/-- The 72 raw readings of `Stag::readCode` (lines 90-107), before thresholding. -/
def readSamples {α Image QD ED : Type} [LinearOrderedField α] (E : Externals α Image QD ED)
    (s : Stag α Image QD ED) (q : Quad α) : List Nat :=
  let samples : List Nat := List.replicate 72 0
  let samples := forLoop 48 (fun i samples =>
    samples.set i
      (E.readPixelSafeBilinear s.image
        (projectPoint q.H (s.codeLocs.getD i Mat31.empty)
          (E.signBitW q.H (s.codeLocs.getD i Mat31.empty))) % 256))
    samples
  let samples := forLoop 12 (fun i samples =>
    samples.set (i + 48)
      (E.readPixelSafeBilinear s.image
        (projectPoint q.H (s.blackLocs.getD i Mat31.empty)
          (E.signBitW q.H (s.blackLocs.getD i Mat31.empty))) % 256))
    samples
  let samples := forLoop 12 (fun i samples =>
    samples.set (i + 60)
      (E.readPixelSafeBilinear s.image
        (projectPoint q.H (s.whiteLocs.getD i Mat31.empty)
          (E.signBitW q.H (s.whiteLocs.getD i Mat31.empty))) % 256))
    samples
  samples

/-- `Stag::readCode`. -/
def readCode {α Image QD ED : Type} [LinearOrderedField α] (E : Externals α Image QD ED)
    (s : Stag α Image QD ED) (q : Quad α) : Codeword :=
  -- take readings from 48 code locations, 12 black border locations, and 12 white border locations
  let samples := readSamples E s q
  -- threshold the readings using Otsu's method
  let samples := threshold_OTSU_BINARY_INV E.otsu samples 255
  -- create a codeword using the thresholded readings
  let c : Codeword := List.replicate 48 false
  forLoop 48 (fun i c => c.set i (decide (samples.getD i 0 / 255 ≠ 0))) c

/-! ## Frame orchestration -/

/-- The exception message for an unsupported channel count. -/
def invalidColorSpace : String :=
  "Invalid image color space. Supported color spaces are: [GRAYSCALE, BGR, BGRA]."

/-- The body of the loop over `quads` in `Stag::detectMarkers` (lines 55-66). -/
def processQuad {α Image QD ED : Type} [LinearOrderedField α] (E : Externals α Image QD ED)
    (s : Stag α Image QD ED) (quad : Quad α) : Stag α Image QD ED :=
  let quad := E.estimateHomography quad
  let c := readCode E s quad
  match E.decode s.decoder c s.errorCorrection with
  | some (id, shift) =>
      let marker : Marker α := { quad := quad, id := id }
      let marker := E.shiftCorners2 marker shift
      { s with markers := s.markers ++ [marker] }
  | none => { s with falseCandidates := s.falseCandidates ++ [quad] }

/-- Lines 49-70 of `Stag::detectMarkers`: what runs once the member `image` holds the grayscale
image. -/
def detectInImage {α Image QD ED : Type} [LinearOrderedField α] (E : Externals α Image QD ED)
    (s : Stag α Image QD ED) : Stag α Image QD ED :=
  let r := E.detectQuads s.quadDetector s.image s.edInterface
  let s := { s with quadDetector := r.1, edInterface := r.2 }
  let quads := E.getQuads s.quadDetector
  let s := quads.foldl (processQuad E) s
  { s with markers := s.markers.map (E.refineMarkerPose s.edInterface) }

/-- `Stag::detectMarkers(inImage)`: the exception thrown, if any, and the object afterwards. -/
def detectMarkers {α Image QD ED : Type} [LinearOrderedField α] (E : Externals α Image QD ED)
    (s : Stag α Image QD ED) (inImage : Image) : Except String Unit × Stag α Image QD ED :=
  -- convert image to grayscale
  if E.channels inImage = 1 then
    (Except.ok (), detectInImage E { s with image := inImage })
  else if E.channels inImage = 3 then
    (Except.ok (), detectInImage E
      { s with image := E.cvtColor inImage ColorConversionCode.COLOR_BGR2GRAY })
  else if E.channels inImage = 4 then
    (Except.ok (), detectInImage E
      { s with image := E.cvtColor inImage ColorConversionCode.COLOR_BGRA2GRAY })
  else
    (Except.error invalidColorSpace, s)

/-! ## Test doubles and reference operations used in the statements -/

/-- A quad whose homography is the zero matrix: every template point is projected to
`(0, 0, 0)`, third homogeneous coordinate `0`. -/
def degenerateQuad (α : Type) [Field α] : Quad α :=
  { corners := [], H := ⟨0, 0, 0, 0, 0, 0, 0, 0, 0⟩ }

/-- Fixed-output collaborators: an image is its channel count, the quad detector stores the
quads of the last frame and finds `quads` in every frame, every pixel reads `0`, and the
decoder answers `verdict` whatever the codeword. -/
def stubExternals (α : Type) [Field α] (quads : List (Quad α)) (verdict : Option (Int × Int)) :
    Externals α Int (List (Quad α)) Unit :=
  { channels := fun img => img
    cvtColor := fun _ _ => 1
    emptyImage := 0
    newQuadDetector := []
    newEDInterface := ()
    detectQuads := fun _ _ _ => (quads, ())
    getQuads := fun qd => qd
    estimateHomography := fun q => q
    signBitW := fun _ _ => false
    readPixelSafeBilinear := fun _ _ => 0
    otsu := fun _ => 0
    decode := fun _ _ _ => verdict
    shiftCorners2 := fun m _ => m
    refineMarkerPose := fun _ m => m }

/-- The quarter turn `(x, y) ↦ (y, 1 - x)` of the unit square about `(0.5, 0.5)`. -/
def rotate90 {α : Type} [Field α] (p : Mat31 α) : Mat31 α :=
  { at0 := p.at1, at1 := 1 - p.at0, at2 := p.at2 }

/-- The rotation about `(0.5, 0.5)` that adds `θ` to the polar angle used by
`createMatFromPolarCoords` (for `θ = π/2` it is `rotate90`). -/
def rotateBy {α : Type} [Field α] (cos sin : α → α) (θ : α) (p : Mat31 α) : Mat31 α :=
  { at0 := 0.5 + cos θ * (p.at0 - 0.5) + sin θ * (p.at1 - 0.5)
    at1 := 0.5 - sin θ * (p.at0 - 0.5) + cos θ * (p.at1 - 0.5)
    at2 := p.at2 }

/-- The decoder's answer for a quad (homography already estimated) in state `s`:
`decoder.decode(readCode(quad), errorCorrection, id, shift)`. -/
def verdict {α Image QD ED : Type} [LinearOrderedField α] (E : Externals α Image QD ED)
    (s : Stag α Image QD ED) (quad : Quad α) : Option (Int × Int) :=
  E.decode s.decoder (readCode E s quad) s.errorCorrection

/-- The markers built, in order, from those of `quads` whose codeword the decoder accepts: each
is `Marker(quad, id)` after `shiftCorners2(shift)`. -/
def acceptedOf {α Image QD ED : Type} [LinearOrderedField α] (E : Externals α Image QD ED)
    (s : Stag α Image QD ED) (quads : List (Quad α)) : List (Marker α) :=
  quads.filterMap (fun q =>
    (verdict E s q).map (fun r => E.shiftCorners2 { quad := q, id := r.1 } r.2))

/-- Those of `quads`, in order, whose codeword the decoder rejects. -/
def rejectedOf {α Image QD ED : Type} [LinearOrderedField α] (E : Externals α Image QD ED)
    (s : Stag α Image QD ED) (quads : List (Quad α)) : List (Quad α) :=
  quads.filter (fun q => (verdict E s q).isNone)

/-- The grayscale image `detectMarkers` stores for an input with 1, 3 or 4 channels. -/
def toGrayscale {α Image QD ED : Type} (E : Externals α Image QD ED) (inImage : Image) : Image :=
  if E.channels inImage = 1 then inImage
  else if E.channels inImage = 3 then E.cvtColor inImage ColorConversionCode.COLOR_BGR2GRAY
  else E.cvtColor inImage ColorConversionCode.COLOR_BGRA2GRAY

/-- The quads the quad source produces for the grayscale image `gray` when asked in state `s`,
each after `estimateHomography`. -/
def frameQuads {α Image QD ED : Type} (E : Externals α Image QD ED)
    (s : Stag α Image QD ED) (gray : Image) : List (Quad α) :=
  (E.getQuads (E.detectQuads s.quadDetector gray s.edInterface).1).map E.estimateHomography

/-- Two orchestrators have the same configuration: budget, decoder and geometry table. -/
def sameConfiguration {α Image QD ED : Type} (s t : Stag α Image QD ED) : Prop :=
  s.errorCorrection = t.errorCorrection ∧ s.decoder = t.decoder ∧ s.codeLocs = t.codeLocs ∧
    s.blackLocs = t.blackLocs ∧ s.whiteLocs = t.whiteLocs

/-- The object `Stag(15, -1)` builds with the fixed-output collaborators (budget `7`). -/
def stubFresh {α : Type} [Field α] (cos sin : α → α) : Stag α Int (List (Quad α)) Unit :=
  { errorCorrection := 7
    quadDetector := []
    edInterface := ()
    decoder := Decoder.mk 15
    image := 0
    markers := []
    falseCandidates := []
    codeLocs := (fillCodeLocations cos sin).codeLocs
    blackLocs := (fillCodeLocations cos sin).blackLocs
    whiteLocs := (fillCodeLocations cos sin).whiteLocs }

/-- The reading `readCode` stores for the template point `p`: the pixel read at the
projection of `p`, as an `unsigned char`. -/
def sampleAt {α Image QD ED : Type} [LinearOrderedField α] (E : Externals α Image QD ED)
    (s : Stag α Image QD ED) (q : Quad α) (p : Mat31 α) : Nat :=
  E.readPixelSafeBilinear s.image (projectPoint q.H p (E.signBitW q.H p)) % 256

/-- The template point behind reading `j` of `readCode`: `codeLocs[j]` for `j < 48`,
`blackLocs[j - 48]` for `48 ≤ j < 60`, `whiteLocs[j - 60]` from 60 on. -/
def samplePoint {α Image QD ED : Type} [LinearOrderedField α] (s : Stag α Image QD ED) (j : Nat) : Mat31 α :=
  if j < 48 then s.codeLocs.getD j Mat31.empty
  else if j < 60 then s.blackLocs.getD (j - 48) Mat31.empty
  else s.whiteLocs.getD (j - 60) Mat31.empty

/-! ## The geometry table, entry by entry -/

theorem length_fillQuadrant {α : Type} [Field α] (cos sin : α → α) (r : α) (i : Nat)
    (l : List (Mat31 α)) : (fillQuadrant cos sin r i l).length = l.length := by
  simp [fillQuadrant]

theorem fillQuadrant_getElem?_of_lt {α : Type} [Field α] (cos sin : α → α) (r : α) (i j : Nat)
    (l : List (Mat31 α)) (h : j < i * 12) : (fillQuadrant cos sin r i l)[j]? = l[j]? := by
  unfold fillQuadrant
  repeat rw [List.getElem?_set_ne (by omega)]

theorem fillQuadrant_getElem? {α : Type} [Field α] (cos sin : α → α) (r : α) (i k : Nat)
    (l : List (Mat31 α)) (hk : k < 12) (hl : i * 12 + 12 ≤ l.length) :
    (fillQuadrant cos sin r i l)[k + i * 12]? =
      some (createMatFromPolarCoords cos sin (codeRadius k) (codeAngle k + i * HALF_PI) r) := by
  unfold fillQuadrant
  interval_cases k <;>
    (repeat rw [List.getElem?_set_ne (by omega)]) <;>
    rw [List.getElem?_set_self (by first | (simp only [List.length_set]; omega) | omega)] <;> rfl

theorem codeLocs_length {α : Type} [Field α] (cos sin : α → α) :
    (fillCodeLocations cos sin).codeLocs.length = 48 := by
  simp [fillCodeLocations, forLoop, List.range, List.range.loop, length_fillQuadrant]

theorem codeLocs_getElem? {α : Type} [Field α] (cos sin : α → α) (i k : Nat) (hi : i < 4)
    (hk : k < 12) :
    (fillCodeLocations cos sin).codeLocs[k + i * 12]? =
      some (createMatFromPolarCoords cos sin (codeRadius k) (codeAngle k + i * HALF_PI)
        (0.4 * 0.9)) := by
  simp only [fillCodeLocations, forLoop, List.range, List.range.loop, List.foldl]
  interval_cases i
  · rw [fillQuadrant_getElem?_of_lt _ _ _ _ _ _ (by omega),
      fillQuadrant_getElem?_of_lt _ _ _ _ _ _ (by omega),
      fillQuadrant_getElem?_of_lt _ _ _ _ _ _ (by omega),
      fillQuadrant_getElem? _ _ _ _ _ _ hk (by simp)]
  · rw [fillQuadrant_getElem?_of_lt _ _ _ _ _ _ (by omega),
      fillQuadrant_getElem?_of_lt _ _ _ _ _ _ (by omega),
      fillQuadrant_getElem? _ _ _ _ _ _ hk (by simp [length_fillQuadrant])]
  · rw [fillQuadrant_getElem?_of_lt _ _ _ _ _ _ (by omega),
      fillQuadrant_getElem? _ _ _ _ _ _ hk (by simp [length_fillQuadrant])]
  · rw [fillQuadrant_getElem? _ _ _ _ _ _ hk (by simp [length_fillQuadrant])]

theorem blackLocs_eq {α : Type} [Field α] (cos sin : α → α) :
    (fillCodeLocations cos sin).blackLocs =
      [⟨0.045, 0.045 * 3, 1⟩, ⟨0.045 * 2, 0.045 * 2, 1⟩, ⟨0.045 * 3, 0.045, 1⟩,
       ⟨1 - 3 * 0.045, 0.045, 1⟩, ⟨1 - 2 * 0.045, 0.045 * 2, 1⟩, ⟨1 - 0.045, 0.045 * 3, 1⟩,
       ⟨1 - 0.045, 1 - 3 * 0.045, 1⟩, ⟨1 - 2 * 0.045, 1 - 2 * 0.045, 1⟩,
       ⟨1 - 3 * 0.045, 1 - 0.045, 1⟩, ⟨0.045 * 3, 1 - 0.045, 1⟩,
       ⟨0.045 * 2, 1 - 2 * 0.045, 1⟩, ⟨0.045, 1 - 3 * 0.045, 1⟩] := by
  rfl

theorem whiteLocs_eq {α : Type} [Field α] (cos sin : α → α) :
    (fillCodeLocations cos sin).whiteLocs =
      [⟨0.25, -0.045, 1⟩, ⟨0.5, -0.045, 1⟩, ⟨0.75, -0.045, 1⟩,
       ⟨1 + 0.045, 0.25, 1⟩, ⟨1 + 0.045, 0.5, 1⟩, ⟨1 + 0.045, 0.75, 1⟩,
       ⟨0.75, 1 + 0.045, 1⟩, ⟨0.5, 1 + 0.045, 1⟩, ⟨0.25, 1 + 0.045, 1⟩,
       ⟨-0.045, 0.75, 1⟩, ⟨-0.045, 0.5, 1⟩, ⟨-0.045, 0.25, 1⟩] := by
  rfl

/-! ## Constructor validation -/

theorem mem_possibleHDs (libraryHD : Int) :
    libraryHD ∈ possibleHDs ↔ (libraryHD = 11 ∨ libraryHD = 13 ∨ libraryHD = 15 ∨
      libraryHD = 17 ∨ libraryHD = 19 ∨ libraryHD = 21 ∨ libraryHD = 23) := by
  simp [possibleHDs]

theorem count_possibleHDs_eq_zero (libraryHD : Int) :
    possibleHDs.count libraryHD = 0 ↔ libraryHD ∉ possibleHDs :=
  List.count_eq_zero

theorem max_nonneg_of_mem {libraryHD : Int} (h : libraryHD ∈ possibleHDs) :
    0 ≤ (libraryHD - 1).tdiv 2 := by
  rw [mem_possibleHDs] at h
  rcases h with h | h | h | h | h | h | h <;> subst h <;> decide

/-- C1: for every pair of integers, the constructor throws exactly when `libraryHD` is not one
of 11, 13, 15, 17, 19, 21, 23 or `errorCorrection` is neither `-1` nor within
`0 ≤ errorCorrection ≤ (libraryHD-1)/2`, and it succeeds exactly in the other cases. -/
theorem C1_constructor_fails_iff {α Image QD ED : Type} [Field α] (cos sin : α → α)
    (E : Externals α Image QD ED) (libraryHD errorCorrection : Int) :
    ((∃ msg, Stag.Stag cos sin E libraryHD errorCorrection = Except.error msg) ↔
      (libraryHD ∉ possibleHDs ∨
        ¬ (errorCorrection = -1 ∨
          (0 ≤ errorCorrection ∧ errorCorrection ≤ (libraryHD - 1).tdiv 2)))) ∧
    ((∃ s, Stag.Stag cos sin E libraryHD errorCorrection = Except.ok s) ↔
      (libraryHD ∈ possibleHDs ∧
        (errorCorrection = -1 ∨
          (0 ≤ errorCorrection ∧ errorCorrection ≤ (libraryHD - 1).tdiv 2)))) := by
  unfold Stag.Stag
  by_cases hHD : libraryHD ∈ possibleHDs
  · have hcount : ¬ possibleHDs.count libraryHD = 0 := by
      rw [count_possibleHDs_eq_zero]; exact not_not.mpr hHD
    have hmax := max_nonneg_of_mem hHD
    by_cases hm : errorCorrection = -1
    · subst hm
      have h1 : ¬ ((-1 : Int) > (libraryHD - 1).tdiv 2 ∨ (libraryHD - 1).tdiv 2 < 0) := by
        omega
      simp [hcount, hHD, h1]
    · by_cases hr : errorCorrection > (libraryHD - 1).tdiv 2 ∨ errorCorrection < 0
      · have hn : ¬ (0 ≤ errorCorrection ∧ errorCorrection ≤ (libraryHD - 1).tdiv 2) := by
          omega
        simp [hcount, hHD, hm, hr, hn]
      · have hn : 0 ≤ errorCorrection ∧ errorCorrection ≤ (libraryHD - 1).tdiv 2 := by
          omega
        simp [hcount, hHD, hm, hr, hn]
  · have hcount : possibleHDs.count libraryHD = 0 := by
      rw [count_possibleHDs_eq_zero]; exact hHD
    simp [hcount, hHD]

/-- C2: for a valid `libraryHD`, a successful construction stores a budget `b` with
`0 ≤ b ≤ (libraryHD-1)/2`, equal to `(libraryHD-1)/2` when `-1` was passed and to the passed
value otherwise; `-1` and `(libraryHD-1)/2` both construct and store the same budget. -/
theorem C2_stored_budget {α Image QD ED : Type} [Field α] (cos sin : α → α)
    (E : Externals α Image QD ED) (libraryHD e : Int) (hHD : libraryHD ∈ possibleHDs) :
    (∀ s, Stag.Stag cos sin E libraryHD e = Except.ok s →
      0 ≤ s.errorCorrection ∧ s.errorCorrection ≤ (libraryHD - 1).tdiv 2 ∧
      (e = -1 → s.errorCorrection = (libraryHD - 1).tdiv 2) ∧
      (e ≠ -1 → s.errorCorrection = e)) ∧
    (∃ s₁ s₂, Stag.Stag cos sin E libraryHD (-1) = Except.ok s₁ ∧
      Stag.Stag cos sin E libraryHD ((libraryHD - 1).tdiv 2) = Except.ok s₂ ∧
      s₁.errorCorrection = (libraryHD - 1).tdiv 2 ∧
      s₁.errorCorrection = s₂.errorCorrection) := by
  have hcount : ¬ possibleHDs.count libraryHD = 0 := by
    rw [count_possibleHDs_eq_zero]; exact not_not.mpr hHD
  have hmax := max_nonneg_of_mem hHD
  refine ⟨?_, ?_⟩
  · intro s hs
    unfold Stag.Stag at hs
    by_cases hm : e = -1
    · subst hm
      have h1 : ¬ ((-1 : Int) > (libraryHD - 1).tdiv 2 ∨ (libraryHD - 1).tdiv 2 < 0) := by
        omega
      simp only [hcount, h1, if_false, if_true] at hs
      injection hs with hs
      subst hs
      simp [hmax]
    · by_cases hr : e > (libraryHD - 1).tdiv 2 ∨ e < 0
      · simp [hcount, hm, hr] at hs
      · simp only [hcount, hm, hr, if_false] at hs
        injection hs with hs
        subst hs
        simp only [ne_eq, hm, not_false_eq_true, true_implies, false_implies, and_true]
        omega
  · have h1 : ¬ ((-1 : Int) > (libraryHD - 1).tdiv 2 ∨ (libraryHD - 1).tdiv 2 < 0) := by
      omega
    by_cases hm : (libraryHD - 1).tdiv 2 = -1
    · omega
    · have h2 : ¬ ((libraryHD - 1).tdiv 2 > (libraryHD - 1).tdiv 2 ∨
          (libraryHD - 1).tdiv 2 < 0) := by omega
      simp only [Stag.Stag, hcount, h1, hm, h2, if_false, if_true]
      exact ⟨_, _, rfl, rfl, rfl, rfl⟩

/-- Witness of C2 at `libraryHD = 15`, `e = -1`, with the fixed-output collaborators:
the stored budget is `7`. -/
theorem C2_stored_budget_witness :
    (15 : Int) ∈ possibleHDs ∧
    ((∀ s, Stag.Stag Real.cos Real.sin (stubExternals ℝ [] none) 15 (-1)
        = Except.ok s →
      0 ≤ s.errorCorrection ∧ s.errorCorrection ≤ (15 - 1 : Int).tdiv 2 ∧
      ((-1 : Int) = -1 → s.errorCorrection = (15 - 1 : Int).tdiv 2) ∧
      ((-1 : Int) ≠ -1 → s.errorCorrection = -1)) ∧
    (∃ s₁ s₂, Stag.Stag Real.cos Real.sin (stubExternals ℝ [] none) 15 (-1)
        = Except.ok s₁ ∧
      Stag.Stag Real.cos Real.sin (stubExternals ℝ [] none) 15
        ((15 - 1 : Int).tdiv 2) = Except.ok s₂ ∧
      s₁.errorCorrection = (15 - 1 : Int).tdiv 2 ∧
      s₁.errorCorrection = s₂.errorCorrection)) :=
  ⟨by decide, C2_stored_budget _ _ _ 15 (-1) (by decide)⟩

/-! ## The loop over the quads of a frame -/

theorem foldl_processQuad {α Image QD ED : Type} [LinearOrderedField α] (E : Externals α Image QD ED)
    (s : Stag α Image QD ED) (quads : List (Quad α)) :
    ∀ (m : List (Marker α)) (f : List (Quad α)),
      quads.foldl (processQuad E) { s with markers := m, falseCandidates := f } =
        { s with markers := m ++ acceptedOf E s (quads.map E.estimateHomography),
                 falseCandidates := f ++ rejectedOf E s (quads.map E.estimateHomography) } := by
  induction quads with
  | nil => intro m f; simp [acceptedOf, rejectedOf]
  | cons q qs ih =>
    intro m f
    rw [List.foldl_cons]
    cases h : verdict E s (E.estimateHomography q) with
    | none =>
      have hstep : processQuad E { s with markers := m, falseCandidates := f } q =
          { s with markers := m, falseCandidates := f ++ [E.estimateHomography q] } := by
        have h' : E.decode s.decoder (readCode E { s with markers := m, falseCandidates := f }
            (E.estimateHomography q)) s.errorCorrection = none := h
        simp only [processQuad, h']
      rw [hstep, ih]
      simp [acceptedOf, rejectedOf, h]
    | some r =>
      obtain ⟨id, shift⟩ := r
      have hstep : processQuad E { s with markers := m, falseCandidates := f } q =
          { s with markers := m ++ [E.shiftCorners2 ⟨E.estimateHomography q, id⟩ shift],
                   falseCandidates := f } := by
        have h' : E.decode s.decoder (readCode E { s with markers := m, falseCandidates := f }
            (E.estimateHomography q)) s.errorCorrection = some (id, shift) := h
        simp only [processQuad, h']
      rw [hstep, ih]
      simp [acceptedOf, rejectedOf, h]

theorem detectInImage_eq {α Image QD ED : Type} [LinearOrderedField α] (E : Externals α Image QD ED)
    (s : Stag α Image QD ED) :
    detectInImage E s =
      { s with
        quadDetector := (E.detectQuads s.quadDetector s.image s.edInterface).1
        edInterface := (E.detectQuads s.quadDetector s.image s.edInterface).2
        markers := (s.markers ++ acceptedOf E s (frameQuads E s s.image)).map
          (E.refineMarkerPose (E.detectQuads s.quadDetector s.image s.edInterface).2)
        falseCandidates := s.falseCandidates ++ rejectedOf E s (frameQuads E s s.image) } := by
  unfold detectInImage
  have h := foldl_processQuad E
    { s with quadDetector := (E.detectQuads s.quadDetector s.image s.edInterface).1
             edInterface := (E.detectQuads s.quadDetector s.image s.edInterface).2 }
    (E.getQuads (E.detectQuads s.quadDetector s.image s.edInterface).1) s.markers
    s.falseCandidates
  simp only [] at h ⊢
  rw [h]
  rfl

theorem detectMarkers_of_supported {α Image QD ED : Type} [LinearOrderedField α]
    (E : Externals α Image QD ED) (s : Stag α Image QD ED) (inImage : Image)
    (hch : E.channels inImage = 1 ∨ E.channels inImage = 3 ∨ E.channels inImage = 4) :
    detectMarkers E s inImage =
      (Except.ok (), detectInImage E { s with image := toGrayscale E inImage }) := by
  unfold detectMarkers toGrayscale
  by_cases h1 : E.channels inImage = 1
  · simp [h1]
  · by_cases h3 : E.channels inImage = 3
    · simp [h3]
    · have h4 : E.channels inImage = 4 := by tauto
      simp [h4]

theorem detectMarkers_of_unsupported {α Image QD ED : Type} [LinearOrderedField α]
    (E : Externals α Image QD ED) (s : Stag α Image QD ED) (inImage : Image)
    (hch : ¬ (E.channels inImage = 1 ∨ E.channels inImage = 3 ∨ E.channels inImage = 4)) :
    detectMarkers E s inImage = (Except.error invalidColorSpace, s) := by
  unfold detectMarkers
  have h1 : ¬ E.channels inImage = 1 := fun h => hch (Or.inl h)
  have h3 : ¬ E.channels inImage = 3 := fun h => hch (Or.inr (Or.inl h))
  have h4 : ¬ E.channels inImage = 4 := fun h => hch (Or.inr (Or.inr h))
  simp [h1, h3, h4]

theorem length_accepted_add_rejected {α Image QD ED : Type} [LinearOrderedField α]
    (E : Externals α Image QD ED) (s : Stag α Image QD ED) (quads : List (Quad α)) :
    (acceptedOf E s quads).length + (rejectedOf E s quads).length = quads.length := by
  induction quads with
  | nil => simp [acceptedOf, rejectedOf]
  | cons q qs ih =>
    unfold acceptedOf rejectedOf at ih ⊢
    cases h : verdict E s q with
    | none => simp [List.filterMap_cons, List.filter_cons, h]; omega
    | some r => simp [List.filterMap_cons, List.filter_cons, h]; omega

theorem stubFresh_eq {α : Type} [Field α] (cos sin : α → α) (quads : List (Quad α))
    (verdict : Option (Int × Int)) :
    Stag.Stag cos sin (stubExternals α quads verdict) 15 (-1) =
      Except.ok (stubFresh cos sin) :=
  rfl

theorem stub_detectMarkers_reject {α : Type} [LinearOrderedField α] (q : Quad α)
    (s : Stag α Int (List (Quad α)) Unit) :
    detectMarkers (stubExternals α [q] none) s 1 =
      (Except.ok (), { s with image := 1, quadDetector := [q], edInterface := (),
                              falseCandidates := s.falseCandidates ++ [q] }) := by
  rw [detectMarkers_of_supported _ _ _ (Or.inl rfl), detectInImage_eq]
  simp [stubExternals, frameQuads, acceptedOf, rejectedOf, verdict, toGrayscale]

theorem stub_detectMarkers_accept {α : Type} [LinearOrderedField α] (q : Quad α) (r : Int × Int)
    (s : Stag α Int (List (Quad α)) Unit) :
    detectMarkers (stubExternals α [q] (some r)) s 1 =
      (Except.ok (), { s with image := 1, quadDetector := [q], edInterface := (),
                              markers := s.markers ++ [⟨q, r.1⟩] }) := by
  rw [detectMarkers_of_supported _ _ _ (Or.inl rfl), detectInImage_eq]
  simp [stubExternals, frameQuads, acceptedOf, rejectedOf, verdict, toGrayscale]

/-! ## Frame orchestration -/

/-- C3 (as the code has it): a call of `detectMarkers` that returns normally adds this frame's
quads to what the orchestrator already holds: afterwards the accepted markers plus the false
candidates number those held before plus the quads the quad source produced for the frame; on
an orchestrator holding none (a freshly constructed one) they number exactly those quads. -/
theorem C3_counts_grow_by_frame_quads {α Image QD ED : Type} [LinearOrderedField α]
    (E : Externals α Image QD ED) (s s' : Stag α Image QD ED) (inImage : Image)
    (h : detectMarkers E s inImage = (Except.ok (), s')) :
    s'.markers.length + s'.falseCandidates.length =
        s.markers.length + s.falseCandidates.length + (E.getQuads s'.quadDetector).length ∧
    (s.markers = [] ∧ s.falseCandidates = [] →
      s'.markers.length + s'.falseCandidates.length = (E.getQuads s'.quadDetector).length) := by
  have hch : E.channels inImage = 1 ∨ E.channels inImage = 3 ∨ E.channels inImage = 4 := by
    by_contra hn
    rw [detectMarkers_of_unsupported E s inImage hn] at h
    simp at h
  rw [detectMarkers_of_supported E s inImage hch, detectInImage_eq] at h
  have hs : s' = _ := (congrArg Prod.snd h).symm
  have hlen := length_accepted_add_rejected E { s with image := toGrayscale E inImage }
    (frameQuads E { s with image := toGrayscale E inImage } (toGrayscale E inImage))
  have hq : (frameQuads E { s with image := toGrayscale E inImage }
      (toGrayscale E inImage)).length = (E.getQuads s'.quadDetector).length := by
    rw [hs]; simp [frameQuads]
  have hmain : s'.markers.length + s'.falseCandidates.length =
      s.markers.length + s.falseCandidates.length + (E.getQuads s'.quadDetector).length := by
    rw [← hq, ← hlen, hs]
    simp only [List.length_map, List.length_append]
    omega
  refine ⟨hmain, ?_⟩
  rintro ⟨hm, hf⟩
  rw [hmain, hm, hf]
  simp

/-- Witness of C3: the second of two calls on a freshly constructed orchestrator whose quad
source finds one quad per frame and whose decoder rejects it. -/
theorem C3_counts_grow_by_frame_quads_witness :
    detectMarkers (stubExternals ℝ [degenerateQuad ℝ] none)
        (detectMarkers (stubExternals ℝ [degenerateQuad ℝ] none)
          (stubFresh Real.cos Real.sin) 1).2 1 =
      (Except.ok (), { stubFresh Real.cos Real.sin with
          image := 1, quadDetector := [degenerateQuad ℝ],
          falseCandidates := [degenerateQuad ℝ, degenerateQuad ℝ] }) ∧
    (([] : List (Marker ℝ)).length + [degenerateQuad ℝ, degenerateQuad ℝ].length =
        ([] : List (Marker ℝ)).length + [degenerateQuad ℝ].length + [degenerateQuad ℝ].length ∧
      (([] : List (Marker ℝ)) = [] ∧ [degenerateQuad ℝ] = ([] : List (Quad ℝ)) →
        ([] : List (Marker ℝ)).length + [degenerateQuad ℝ, degenerateQuad ℝ].length =
          [degenerateQuad ℝ].length)) :=
  ⟨by simp [stub_detectMarkers_reject, stubFresh],
   C3_counts_grow_by_frame_quads (stubExternals ℝ [degenerateQuad ℝ] none)
    (detectMarkers (stubExternals ℝ [degenerateQuad ℝ] none)
      (stubFresh Real.cos Real.sin) 1).2
    { stubFresh Real.cos Real.sin with
        image := 1, quadDetector := [degenerateQuad ℝ],
        falseCandidates := [degenerateQuad ℝ, degenerateQuad ℝ] } 1
    (by simp [stub_detectMarkers_reject, stubFresh])⟩

/-- Counterexample to C3 as stated: a freshly constructed `Stag(15, -1)` whose quad source finds
one quad per frame and whose decoder rejects it. The second call returns normally, the quad
source produced 1 quad for that frame, and the orchestrator holds 0 markers and 2 false
candidates. -/
theorem C3_counterexample :
    Stag.Stag Real.cos Real.sin (stubExternals ℝ [degenerateQuad ℝ] none) 15 (-1) =
      Except.ok (stubFresh Real.cos Real.sin) ∧
    (detectMarkers (stubExternals ℝ [degenerateQuad ℝ] none)
      (detectMarkers (stubExternals ℝ [degenerateQuad ℝ] none)
        (stubFresh Real.cos Real.sin) 1).2 1).1 = Except.ok () ∧
    ((stubExternals ℝ [degenerateQuad ℝ] none).getQuads
      (detectMarkers (stubExternals ℝ [degenerateQuad ℝ] none)
        (detectMarkers (stubExternals ℝ [degenerateQuad ℝ] none)
          (stubFresh Real.cos Real.sin) 1).2 1).2.quadDetector).length
      = 1 ∧
    (detectMarkers (stubExternals ℝ [degenerateQuad ℝ] none)
      (detectMarkers (stubExternals ℝ [degenerateQuad ℝ] none)
        (stubFresh Real.cos Real.sin) 1).2 1).2.markers.length +
    (detectMarkers (stubExternals ℝ [degenerateQuad ℝ] none)
      (detectMarkers (stubExternals ℝ [degenerateQuad ℝ] none)
        (stubFresh Real.cos Real.sin) 1).2 1).2.falseCandidates.length
      = 2 := by
  refine ⟨rfl, ?_, ?_, ?_⟩ <;> simp only [stub_detectMarkers_reject] <;>
    simp [stubFresh, stubExternals]

theorem verdict_congr {α Image QD ED : Type} [LinearOrderedField α] (E : Externals α Image QD ED)
    (s t : Stag α Image QD ED) (hcfg : sameConfiguration s t) (gray : Image) (q : Quad α) :
    verdict E { s with image := gray } q = verdict E { t with image := gray } q := by
  obtain ⟨h1, h2, h3, h4, h5⟩ := hcfg
  simp only [verdict, readCode, readSamples, h1, h2, h3, h4, h5]

theorem map_id_refine {α ED : Type} (refine : ED → Marker α → Marker α)
    (h : ∀ ed m, (refine ed m).id = m.id) (ed : ED) (l : List (Marker α)) :
    (l.map (refine ed)).map (fun m => m.id) = l.map (fun m => m.id) := by
  simp [List.map_map, Function.comp_def, h]

/-- C4 (as the code has it): `detectMarkers` does not discard what the orchestrator holds, and
what it adds depends only on the image (for a fixed configuration and a fixed answer of the quad
source). For two orchestrators `s`, `t` of the same configuration for which the quad source
finds the same quads in the image, there are one list `A` of accepted markers (identifier set,
corners shifted, not yet refined) and one list `F` of false candidates such that after the call
each orchestrator holds as false candidates those it held before followed by `F`, and as accepted
markers those it held before followed by `A`, every one of them (the earlier ones again) passed
through the pose refiner. If the pose refiner keeps identifiers, the identifiers held afterwards
are those held before followed by those of `A`. -/
theorem C4_frame_results_appended {α Image QD ED : Type} [LinearOrderedField α]
    (E : Externals α Image QD ED) (s t : Stag α Image QD ED) (inImage : Image)
    (hcfg : sameConfiguration s t)
    (hq : E.getQuads (E.detectQuads s.quadDetector (toGrayscale E inImage) s.edInterface).1 =
      E.getQuads (E.detectQuads t.quadDetector (toGrayscale E inImage) t.edInterface).1)
    (hch : E.channels inImage = 1 ∨ E.channels inImage = 3 ∨ E.channels inImage = 4) :
    ∃ (A : List (Marker α)) (F : List (Quad α)),
      (detectMarkers E s inImage).2.markers =
        (s.markers ++ A).map (E.refineMarkerPose (detectMarkers E s inImage).2.edInterface) ∧
      (detectMarkers E t inImage).2.markers =
        (t.markers ++ A).map (E.refineMarkerPose (detectMarkers E t inImage).2.edInterface) ∧
      (detectMarkers E s inImage).2.falseCandidates = s.falseCandidates ++ F ∧
      (detectMarkers E t inImage).2.falseCandidates = t.falseCandidates ++ F ∧
      ((∀ ed m, (E.refineMarkerPose ed m).id = m.id) →
        (detectMarkers E s inImage).2.markers.map (fun m => m.id) =
          s.markers.map (fun m => m.id) ++ A.map (fun m => m.id) ∧
        (detectMarkers E t inImage).2.markers.map (fun m => m.id) =
          t.markers.map (fun m => m.id) ++ A.map (fun m => m.id)) := by
  have hfq : frameQuads E { t with image := toGrayscale E inImage } (toGrayscale E inImage) =
      frameQuads E { s with image := toGrayscale E inImage } (toGrayscale E inImage) := by
    simp only [frameQuads, hq]
  have hv : verdict E { t with image := toGrayscale E inImage } =
      verdict E { s with image := toGrayscale E inImage } :=
    funext fun q => (verdict_congr E s t hcfg (toGrayscale E inImage) q).symm
  have hA : acceptedOf E { t with image := toGrayscale E inImage }
        (frameQuads E { t with image := toGrayscale E inImage } (toGrayscale E inImage)) =
      acceptedOf E { s with image := toGrayscale E inImage }
        (frameQuads E { s with image := toGrayscale E inImage } (toGrayscale E inImage)) := by
    simp only [acceptedOf, hfq, hv]
  have hF : rejectedOf E { t with image := toGrayscale E inImage }
        (frameQuads E { t with image := toGrayscale E inImage } (toGrayscale E inImage)) =
      rejectedOf E { s with image := toGrayscale E inImage }
        (frameQuads E { s with image := toGrayscale E inImage } (toGrayscale E inImage)) := by
    simp only [rejectedOf, hfq, hv]
  refine ⟨acceptedOf E { s with image := toGrayscale E inImage }
      (frameQuads E { s with image := toGrayscale E inImage } (toGrayscale E inImage)),
    rejectedOf E { s with image := toGrayscale E inImage }
      (frameQuads E { s with image := toGrayscale E inImage } (toGrayscale E inImage)), ?_⟩
  rw [detectMarkers_of_supported E s inImage hch, detectMarkers_of_supported E t inImage hch,
    detectInImage_eq, detectInImage_eq]
  simp only [hA, hF]
  refine ⟨trivial, trivial, trivial, trivial, ?_⟩
  intro hid
  simp only [map_id_refine E.refineMarkerPose hid, List.map_append]
  exact ⟨trivial, trivial⟩

/-- Witness of C4: a freshly constructed `Stag(15, -1)` and the same orchestrator after one
frame, with a quad source that finds one quad per frame and a decoder that accepts it as
identifier 7 with shift 0. -/
theorem C4_frame_results_appended_witness :
    sameConfiguration (stubFresh Real.cos Real.sin)
      (detectMarkers (stubExternals ℝ [degenerateQuad ℝ] (some (7, 0)))
        (stubFresh Real.cos Real.sin) 1).2 ∧
    (stubExternals ℝ [degenerateQuad ℝ] (some (7, 0))).getQuads
        ((stubExternals ℝ [degenerateQuad ℝ] (some (7, 0))).detectQuads
          (stubFresh Real.cos Real.sin).quadDetector (toGrayscale (stubExternals ℝ [degenerateQuad ℝ] (some (7, 0))) 1)
          (stubFresh Real.cos Real.sin).edInterface).1 =
      (stubExternals ℝ [degenerateQuad ℝ] (some (7, 0))).getQuads
        ((stubExternals ℝ [degenerateQuad ℝ] (some (7, 0))).detectQuads
          (detectMarkers (stubExternals ℝ [degenerateQuad ℝ] (some (7, 0))) (stubFresh Real.cos Real.sin) 1).2.quadDetector
          (toGrayscale (stubExternals ℝ [degenerateQuad ℝ] (some (7, 0))) 1)
          (detectMarkers (stubExternals ℝ [degenerateQuad ℝ] (some (7, 0))) (stubFresh Real.cos Real.sin) 1).2.edInterface).1 ∧
    ((stubExternals ℝ [degenerateQuad ℝ] (some (7, 0))).channels 1 = 1 ∨
      (stubExternals ℝ [degenerateQuad ℝ] (some (7, 0))).channels 1 = 3 ∨
      (stubExternals ℝ [degenerateQuad ℝ] (some (7, 0))).channels 1 = 4) ∧
    (∃ (A : List (Marker ℝ)) (F : List (Quad ℝ)),
      (detectMarkers (stubExternals ℝ [degenerateQuad ℝ] (some (7, 0)))
          (stubFresh Real.cos Real.sin) 1).2.markers =
        ((stubFresh Real.cos Real.sin).markers ++ A).map
          ((stubExternals ℝ [degenerateQuad ℝ] (some (7, 0))).refineMarkerPose
            (detectMarkers (stubExternals ℝ [degenerateQuad ℝ] (some (7, 0)))
              (stubFresh Real.cos Real.sin) 1).2.edInterface) ∧
      (detectMarkers (stubExternals ℝ [degenerateQuad ℝ] (some (7, 0)))
          (detectMarkers (stubExternals ℝ [degenerateQuad ℝ] (some (7, 0)))
            (stubFresh Real.cos Real.sin) 1).2 1).2.markers =
        ((detectMarkers (stubExternals ℝ [degenerateQuad ℝ] (some (7, 0)))
            (stubFresh Real.cos Real.sin) 1).2.markers ++ A).map
          ((stubExternals ℝ [degenerateQuad ℝ] (some (7, 0))).refineMarkerPose
            (detectMarkers (stubExternals ℝ [degenerateQuad ℝ] (some (7, 0)))
              (detectMarkers (stubExternals ℝ [degenerateQuad ℝ] (some (7, 0)))
                (stubFresh Real.cos Real.sin) 1).2 1).2.edInterface) ∧
      (detectMarkers (stubExternals ℝ [degenerateQuad ℝ] (some (7, 0)))
          (stubFresh Real.cos Real.sin) 1).2.falseCandidates =
        (stubFresh Real.cos Real.sin).falseCandidates ++ F ∧
      (detectMarkers (stubExternals ℝ [degenerateQuad ℝ] (some (7, 0)))
          (detectMarkers (stubExternals ℝ [degenerateQuad ℝ] (some (7, 0)))
            (stubFresh Real.cos Real.sin) 1).2 1).2.falseCandidates =
        (detectMarkers (stubExternals ℝ [degenerateQuad ℝ] (some (7, 0)))
          (stubFresh Real.cos Real.sin) 1).2.falseCandidates ++ F ∧
      ((∀ ed m, ((stubExternals ℝ [degenerateQuad ℝ] (some (7, 0))).refineMarkerPose ed m).id
          = m.id) →
        (detectMarkers (stubExternals ℝ [degenerateQuad ℝ] (some (7, 0)))
            (stubFresh Real.cos Real.sin) 1).2.markers.map (fun m => m.id) =
          (stubFresh Real.cos Real.sin).markers.map (fun m => m.id) ++ A.map (fun m => m.id) ∧
        (detectMarkers (stubExternals ℝ [degenerateQuad ℝ] (some (7, 0)))
            (detectMarkers (stubExternals ℝ [degenerateQuad ℝ] (some (7, 0)))
              (stubFresh Real.cos Real.sin) 1).2 1).2.markers.map (fun m => m.id) =
          (detectMarkers (stubExternals ℝ [degenerateQuad ℝ] (some (7, 0)))
            (stubFresh Real.cos Real.sin) 1).2.markers.map (fun m => m.id) ++
            A.map (fun m => m.id))) :=
  ⟨by simp only [stub_detectMarkers_accept]; exact ⟨rfl, rfl, rfl, rfl, rfl⟩,
   rfl, Or.inl rfl,
   C4_frame_results_appended (stubExternals ℝ [degenerateQuad ℝ] (some (7, 0)))
    (stubFresh Real.cos Real.sin)
    (detectMarkers (stubExternals ℝ [degenerateQuad ℝ] (some (7, 0)))
      (stubFresh Real.cos Real.sin) 1).2 1
    (by simp only [stub_detectMarkers_accept]; exact ⟨rfl, rfl, rfl, rfl, rfl⟩)
    rfl (Or.inl rfl)⟩

/-- Counterexample to C4 as stated: with a quad source that finds one quad in every frame and a
decoder that accepts it as identifier 7, a freshly constructed `Stag(15, -1)` holds the
identifiers `[7]` after one call with an image and `[7, 7]` after a second call with the same
image: two successive calls do not leave the same accepted markers as a single call. -/
theorem C4_counterexample :
    Stag.Stag Real.cos Real.sin (stubExternals ℝ [degenerateQuad ℝ] (some (7, 0))) 15 (-1) =
      Except.ok (stubFresh Real.cos Real.sin) ∧
    (detectMarkers (stubExternals ℝ [degenerateQuad ℝ] (some (7, 0)))
      (stubFresh Real.cos Real.sin) 1).2.markers.map (fun m => m.id) = [7] ∧
    (detectMarkers (stubExternals ℝ [degenerateQuad ℝ] (some (7, 0)))
      (detectMarkers (stubExternals ℝ [degenerateQuad ℝ] (some (7, 0)))
        (stubFresh Real.cos Real.sin) 1).2 1).2.markers.map (fun m => m.id) = [7, 7] ∧
    (detectMarkers (stubExternals ℝ [degenerateQuad ℝ] (some (7, 0)))
      (detectMarkers (stubExternals ℝ [degenerateQuad ℝ] (some (7, 0)))
        (stubFresh Real.cos Real.sin) 1).2 1).2.markers ≠
    (detectMarkers (stubExternals ℝ [degenerateQuad ℝ] (some (7, 0)))
      (stubFresh Real.cos Real.sin) 1).2.markers := by
  refine ⟨rfl, ?_, ?_, ?_⟩ <;> simp only [stub_detectMarkers_accept] <;> simp [stubFresh]

/-- C5: for every input image and every orchestrator state, either the channel count is none of
1, 3, 4 and `detectMarkers` throws the invalid-argument error leaving the whole object (quad
detector, edge interface, stored image, accepted markers, false candidates) exactly as it was,
or the channel count is 1, 3 or 4 and `detectMarkers` returns normally. -/
theorem C5_unsupported_channels_raise_unchanged {α Image QD ED : Type} [LinearOrderedField α]
    (E : Externals α Image QD ED) (s : Stag α Image QD ED) (inImage : Image) :
    (¬ (E.channels inImage = 1 ∨ E.channels inImage = 3 ∨ E.channels inImage = 4) ∧
        detectMarkers E s inImage = (Except.error invalidColorSpace, s)) ∨
    ((E.channels inImage = 1 ∨ E.channels inImage = 3 ∨ E.channels inImage = 4) ∧
        (detectMarkers E s inImage).1 = Except.ok ()) := by
  by_cases hch : E.channels inImage = 1 ∨ E.channels inImage = 3 ∨ E.channels inImage = 4
  · exact Or.inr ⟨hch, by rw [detectMarkers_of_supported E s inImage hch]⟩
  · exact Or.inl ⟨hch, detectMarkers_of_unsupported E s inImage hch⟩

theorem Stag_ok_fields {α Image QD ED : Type} [Field α] (cos sin : α → α)
    (E : Externals α Image QD ED) (libraryHD inErrorCorrection : Int)
    (s : Stag α Image QD ED)
    (h : Stag.Stag cos sin E libraryHD inErrorCorrection = Except.ok s) :
    s.markers = [] ∧ s.falseCandidates = [] ∧ s.decoder = Decoder.mk libraryHD ∧
      s.errorCorrection =
        (if inErrorCorrection = -1 then (libraryHD - 1).tdiv 2 else inErrorCorrection) ∧
      s.codeLocs = (fillCodeLocations cos sin).codeLocs ∧
      s.blackLocs = (fillCodeLocations cos sin).blackLocs ∧
      s.whiteLocs = (fillCodeLocations cos sin).whiteLocs := by
  unfold Stag.Stag at h
  dsimp only at h
  by_cases hc : possibleHDs.count libraryHD = 0
  · rw [if_pos hc] at h
    cases h
  · rw [if_neg hc] at h
    by_cases hr : inErrorCorrection > (libraryHD - 1).tdiv 2 ∨
        (if inErrorCorrection = -1 then (libraryHD - 1).tdiv 2 else inErrorCorrection) < 0
    · rw [if_pos hr] at h
      cases h
    · rw [if_neg hr] at h
      injection h with h
      subst h
      simp only [and_self]

/-- C6: on a freshly constructed orchestrator `s₀ = Stag(libraryHD, e)` and an image with 1, 3 or
4 channels, `detectMarkers` returns normally and, with `quads` the frame's quads in source order
(homography estimated) and the decoder asked with the configured budget: the false candidates
are exactly the quads the decoder rejects, in order; the accepted markers are exactly, in order,
one marker per quad the decoder accepts, built from that quad with the identifier the decoder
returned (corners shifted, pose refined); and, the shift and the pose refiner keeping
identifiers, the identifiers held are exactly those the decoder returned. A rejected quad does
not stop the quads after it: every quad of the frame is filtered. -/
theorem C6_partition_by_decoder {α Image QD ED : Type} [LinearOrderedField α] (cos sin : α → α)
    (E : Externals α Image QD ED) (libraryHD e : Int) (s₀ : Stag α Image QD ED)
    (inImage : Image)
    (hnew : Stag.Stag cos sin E libraryHD e = Except.ok s₀)
    (hch : E.channels inImage = 1 ∨ E.channels inImage = 3 ∨ E.channels inImage = 4)
    (hshift : ∀ m k, (E.shiftCorners2 m k).id = m.id)
    (hrefine : ∀ ed m, (E.refineMarkerPose ed m).id = m.id) :
    ∃ s₁, detectMarkers E s₀ inImage = (Except.ok (), s₁) ∧
      s₁.falseCandidates =
        (frameQuads E s₀ (toGrayscale E inImage)).filter (fun q =>
          (E.decode (Decoder.mk libraryHD)
            (readCode E { s₀ with image := toGrayscale E inImage } q)
            (if e = -1 then (libraryHD - 1).tdiv 2 else e)).isNone) ∧
      s₁.markers =
        (frameQuads E s₀ (toGrayscale E inImage)).filterMap (fun q =>
          (E.decode (Decoder.mk libraryHD)
            (readCode E { s₀ with image := toGrayscale E inImage } q)
            (if e = -1 then (libraryHD - 1).tdiv 2 else e)).map (fun r =>
              E.refineMarkerPose s₁.edInterface
                (E.shiftCorners2 { quad := q, id := r.1 } r.2))) ∧
      s₁.markers.map (fun m => m.id) =
        (frameQuads E s₀ (toGrayscale E inImage)).filterMap (fun q =>
          (E.decode (Decoder.mk libraryHD)
            (readCode E { s₀ with image := toGrayscale E inImage } q)
            (if e = -1 then (libraryHD - 1).tdiv 2 else e)).map (fun r => r.1)) := by
  obtain ⟨hm, hf, hdec, hec, -, -, -⟩ := Stag_ok_fields cos sin E libraryHD e s₀ hnew
  refine ⟨_, detectMarkers_of_supported E s₀ inImage hch, ?_⟩
  rw [detectInImage_eq]
  have hfq : frameQuads E { s₀ with image := toGrayscale E inImage } (toGrayscale E inImage) =
      frameQuads E s₀ (toGrayscale E inImage) := rfl
  have hv : ∀ q, verdict E { s₀ with image := toGrayscale E inImage } q =
      E.decode (Decoder.mk libraryHD)
        (readCode E { s₀ with image := toGrayscale E inImage } q)
        (if e = -1 then (libraryHD - 1).tdiv 2 else e) := by
    intro q
    simp only [verdict, hdec, hec]
  have hv' : verdict E { s₀ with image := toGrayscale E inImage } = fun q =>
      E.decode (Decoder.mk libraryHD)
        (readCode E { s₀ with image := toGrayscale E inImage } q)
        (if e = -1 then (libraryHD - 1).tdiv 2 else e) := funext hv
  simp only [hfq, rejectedOf, acceptedOf, hv']
  simp only [hm, hf, List.nil_append, List.map_filterMap, Option.map_map]
  refine ⟨trivial, ?_, ?_⟩
  · apply List.filterMap_congr
    intro q _
    rfl
  · apply List.filterMap_congr
    intro q _
    generalize E.decode _ _ _ = d
    cases d <;> simp [hshift, hrefine]

/-- Witness of C6: a freshly constructed `Stag(15, -1)`, a 1-channel image, a quad source that
finds one quad and a decoder that accepts it as identifier 7 with shift 0. -/
theorem C6_partition_by_decoder_witness :
    Stag.Stag Real.cos Real.sin (stubExternals ℝ [degenerateQuad ℝ] (some (7, 0))) 15 (-1) = Except.ok (stubFresh Real.cos Real.sin) ∧
    ((stubExternals ℝ [degenerateQuad ℝ] (some (7, 0))).channels 1 = 1 ∨ (stubExternals ℝ [degenerateQuad ℝ] (some (7, 0))).channels 1 = 3 ∨ (stubExternals ℝ [degenerateQuad ℝ] (some (7, 0))).channels 1 = 4) ∧
    (∀ m k, ((stubExternals ℝ [degenerateQuad ℝ] (some (7, 0))).shiftCorners2 m k).id = m.id) ∧
    (∀ ed m, ((stubExternals ℝ [degenerateQuad ℝ] (some (7, 0))).refineMarkerPose ed m).id = m.id) ∧
    (∃ s₁, detectMarkers (stubExternals ℝ [degenerateQuad ℝ] (some (7, 0))) (stubFresh Real.cos Real.sin) (1 : Int) = (Except.ok (), s₁) ∧
      s₁.falseCandidates =
        (frameQuads (stubExternals ℝ [degenerateQuad ℝ] (some (7, 0))) (stubFresh Real.cos Real.sin) (toGrayscale (stubExternals ℝ [degenerateQuad ℝ] (some (7, 0))) (1 : Int))).filter (fun q =>
          ((stubExternals ℝ [degenerateQuad ℝ] (some (7, 0))).decode (Decoder.mk (15 : Int))
            (readCode (stubExternals ℝ [degenerateQuad ℝ] (some (7, 0))) { (stubFresh Real.cos Real.sin) with image := toGrayscale (stubExternals ℝ [degenerateQuad ℝ] (some (7, 0))) (1 : Int) } q)
            (if (-1 : Int) = -1 then ((15 : Int) - 1).tdiv 2 else (-1 : Int))).isNone) ∧
      s₁.markers =
        (frameQuads (stubExternals ℝ [degenerateQuad ℝ] (some (7, 0))) (stubFresh Real.cos Real.sin) (toGrayscale (stubExternals ℝ [degenerateQuad ℝ] (some (7, 0))) (1 : Int))).filterMap (fun q =>
          ((stubExternals ℝ [degenerateQuad ℝ] (some (7, 0))).decode (Decoder.mk (15 : Int))
            (readCode (stubExternals ℝ [degenerateQuad ℝ] (some (7, 0))) { (stubFresh Real.cos Real.sin) with image := toGrayscale (stubExternals ℝ [degenerateQuad ℝ] (some (7, 0))) (1 : Int) } q)
            (if (-1 : Int) = -1 then ((15 : Int) - 1).tdiv 2 else (-1 : Int))).map (fun r =>
              (stubExternals ℝ [degenerateQuad ℝ] (some (7, 0))).refineMarkerPose s₁.edInterface
                ((stubExternals ℝ [degenerateQuad ℝ] (some (7, 0))).shiftCorners2 { quad := q, id := r.1 } r.2))) ∧
      s₁.markers.map (fun m => m.id) =
        (frameQuads (stubExternals ℝ [degenerateQuad ℝ] (some (7, 0))) (stubFresh Real.cos Real.sin) (toGrayscale (stubExternals ℝ [degenerateQuad ℝ] (some (7, 0))) (1 : Int))).filterMap (fun q =>
          ((stubExternals ℝ [degenerateQuad ℝ] (some (7, 0))).decode (Decoder.mk (15 : Int))
            (readCode (stubExternals ℝ [degenerateQuad ℝ] (some (7, 0))) { (stubFresh Real.cos Real.sin) with image := toGrayscale (stubExternals ℝ [degenerateQuad ℝ] (some (7, 0))) (1 : Int) } q)
            (if (-1 : Int) = -1 then ((15 : Int) - 1).tdiv 2 else (-1 : Int))).map (fun r => r.1))) :=
  ⟨rfl, Or.inl rfl, fun _ _ => rfl, fun _ _ => rfl,
   C6_partition_by_decoder Real.cos Real.sin (stubExternals ℝ [degenerateQuad ℝ] (some (7, 0))) 15 (-1) (stubFresh Real.cos Real.sin) 1 rfl (Or.inl rfl)
    (fun _ _ => rfl) (fun _ _ => rfl)⟩

/-! ## Sampling and thresholding -/

theorem forLoop_succ {σ : Type} (n : Nat) (body : Nat → σ → σ) (init : σ) :
    forLoop (n + 1) body init = body n (forLoop n body init) := by
  simp [forLoop, List.range_succ, List.foldl_append]

theorem length_forLoop_set {β : Type} (n off : Nat) (f : Nat → β) (l : List β) :
    (forLoop n (fun i l => l.set (i + off) (f i)) l).length = l.length := by
  induction n with
  | zero => rfl
  | succ n ih => rw [forLoop_succ, List.length_set, ih]

theorem forLoop_set_getElem? {β : Type} (n off : Nat) (f : Nat → β) (l : List β) (j : Nat) :
    (forLoop n (fun i l => l.set (i + off) (f i)) l)[j]? =
      if off ≤ j ∧ j < off + n ∧ j < l.length then some (f (j - off)) else l[j]? := by
  induction n with
  | zero =>
    have : ¬ (off ≤ j ∧ j < off + 0 ∧ j < l.length) := by omega
    rw [if_neg this]
    rfl
  | succ n ih =>
    rw [forLoop_succ, List.getElem?_set, length_forLoop_set, ih]
    by_cases hj : n + off = j
    · subst hj
      by_cases hl : n + off < l.length
      · have h1 : off ≤ n + off ∧ n + off < off + (n + 1) ∧ n + off < l.length := by omega
        simp [hl, h1]
      · have h1 : ¬ (off ≤ n + off ∧ n + off < off + (n + 1) ∧ n + off < l.length) := by omega
        have h2 : l[n + off]? = none := List.getElem?_eq_none (by omega)
        simp [hl, h1, h2]
    · rw [if_neg hj]
      by_cases h1 : off ≤ j ∧ j < off + n ∧ j < l.length
      · have h2 : off ≤ j ∧ j < off + (n + 1) ∧ j < l.length := by omega
        rw [if_pos h1, if_pos h2]
      · have h2 : ¬ (off ≤ j ∧ j < off + (n + 1) ∧ j < l.length) := by omega
        rw [if_neg h1, if_neg h2]

theorem readSamples_eq {α Image QD ED : Type} [LinearOrderedField α] (E : Externals α Image QD ED)
    (s : Stag α Image QD ED) (q : Quad α) :
    readSamples E s q =
      forLoop 12 (fun i l => l.set (i + 60) (sampleAt E s q (s.whiteLocs.getD i Mat31.empty)))
        (forLoop 12 (fun i l => l.set (i + 48) (sampleAt E s q (s.blackLocs.getD i Mat31.empty)))
          (forLoop 48 (fun i l => l.set (i + 0) (sampleAt E s q (s.codeLocs.getD i Mat31.empty)))
            (List.replicate 72 0))) :=
  rfl

theorem length_readSamples {α Image QD ED : Type} [LinearOrderedField α] (E : Externals α Image QD ED)
    (s : Stag α Image QD ED) (q : Quad α) : (readSamples E s q).length = 72 := by
  rw [readSamples_eq, length_forLoop_set, length_forLoop_set, length_forLoop_set,
    List.length_replicate]

theorem readSamples_getElem? {α Image QD ED : Type} [LinearOrderedField α] (E : Externals α Image QD ED)
    (s : Stag α Image QD ED) (q : Quad α) (j : Nat) (hj : j < 72) :
    (readSamples E s q)[j]? =
      some (if j < 48 then sampleAt E s q (s.codeLocs.getD j Mat31.empty)
        else if j < 60 then sampleAt E s q (s.blackLocs.getD (j - 48) Mat31.empty)
        else sampleAt E s q (s.whiteLocs.getD (j - 60) Mat31.empty)) := by
  rw [readSamples_eq, forLoop_set_getElem?, forLoop_set_getElem?, forLoop_set_getElem?]
  simp only [length_forLoop_set, List.length_replicate]
  by_cases h1 : j < 48
  · have a : ¬ (60 ≤ j ∧ j < 60 + 12 ∧ j < 72) := by omega
    have b : ¬ (48 ≤ j ∧ j < 48 + 12 ∧ j < 72) := by omega
    have c : 0 ≤ j ∧ j < 0 + 48 ∧ j < 72 := by omega
    rw [if_neg a, if_neg b, if_pos c, if_pos h1, Nat.sub_zero]
  · by_cases h2 : j < 60
    · have a : ¬ (60 ≤ j ∧ j < 60 + 12 ∧ j < 72) := by omega
      have b : 48 ≤ j ∧ j < 48 + 12 ∧ j < 72 := by omega
      rw [if_neg a, if_pos b, if_neg h1, if_pos h2]
    · have a : 60 ≤ j ∧ j < 60 + 12 ∧ j < 72 := by omega
      rw [if_pos a, if_neg h1, if_neg h2]

theorem readCode_eq {α Image QD ED : Type} [LinearOrderedField α] (E : Externals α Image QD ED)
    (s : Stag α Image QD ED) (q : Quad α) :
    readCode E s q =
      forLoop 48 (fun i c => c.set (i + 0)
        (decide ((threshold_OTSU_BINARY_INV E.otsu (readSamples E s q) 255).getD i 0 / 255 ≠ 0)))
        (List.replicate 48 false) :=
  rfl

/-- C9: for every quad and image (every orchestrator state), the codeword `readCode` returns has
exactly 48 bits. The 72 readings are taken, in order, for the 48 code points, the 12 black-border
points and the 12 white-border points: reading `j` is the pixel read at `(X / W, Y / W)`, where
`(X, Y, W) = H * p` for the template point `p` of index `j` (for `W = 0` the quotients are the NaN
or signed infinity of `double` division). Bit `i` (`i < 48`) is set exactly when reading `i`, the
one of `codeLocs[i]`, is not above the single threshold chosen over all 72 readings; the border
readings (indices 48..71) enter the codeword only through that threshold. -/
theorem C9_codeword_bits {α Image QD ED : Type} [LinearOrderedField α]
    (E : Externals α Image QD ED) (s : Stag α Image QD ED) (q : Quad α) :
    (readCode E s q).length = 48 ∧
    (readSamples E s q).length = 72 ∧
    (∀ (j : Nat) (p : Mat31 α) (X Y W : α), j < 72 →
      p = (if j < 48 then s.codeLocs.getD j Mat31.empty
        else if j < 60 then s.blackLocs.getD (j - 48) Mat31.empty
        else s.whiteLocs.getD (j - 60) Mat31.empty) →
      X = q.H.h00 * p.at0 + q.H.h01 * p.at1 + q.H.h02 * p.at2 →
      Y = q.H.h10 * p.at0 + q.H.h11 * p.at1 + q.H.h12 * p.at2 →
      W = q.H.h20 * p.at0 + q.H.h21 * p.at1 + q.H.h22 * p.at2 →
      (readSamples E s q)[j]? =
        some (E.readPixelSafeBilinear s.image
          { x := if W = 0 then
                (if X = 0 then Double.nan
                  else if decide (X < 0) = E.signBitW q.H p then Double.posInf
                  else Double.negInf)
              else Double.finite (X / W)
            y := if W = 0 then
                (if Y = 0 then Double.nan
                  else if decide (Y < 0) = E.signBitW q.H p then Double.posInf
                  else Double.negInf)
              else Double.finite (Y / W) } % 256)) ∧
    (∀ (i v : Nat), i < 48 → (readSamples E s q)[i]? = some v →
      (readCode E s q)[i]? = some (decide (v ≤ E.otsu (readSamples E s q)))) := by
  refine ⟨?_, length_readSamples E s q, ?_, ?_⟩
  · rw [readCode_eq, length_forLoop_set, List.length_replicate]
  · intro j p X Y W hj hp hX hY hW
    subst hX hY hW
    rw [readSamples_getElem? E s q j hj]
    by_cases h1 : j < 48
    · rw [if_pos h1] at hp ⊢
      subst hp
      rfl
    · by_cases h2 : j < 60
      · rw [if_neg h1, if_pos h2] at hp ⊢
        subst hp
        rfl
      · rw [if_neg h1, if_neg h2] at hp ⊢
        subst hp
        rfl
  · intro i v hi hv
    rw [readCode_eq, forLoop_set_getElem?]
    have hc : 0 ≤ i ∧ i < 0 + 48 ∧ i < (List.replicate 48 false).length := by
      simp only [List.length_replicate]; omega
    rw [if_pos hc]
    have hthr : (threshold_OTSU_BINARY_INV E.otsu (readSamples E s q) 255).getD (i - 0) 0 =
        if v > E.otsu (readSamples E s q) then 0 else 255 := by
      simp [threshold_OTSU_BINARY_INV, List.getD_eq_getElem?_getD, List.getElem?_map, hv]
    rw [hthr]
    by_cases hgt : v > E.otsu (readSamples E s q)
    · have hle : ¬ v ≤ E.otsu (readSamples E s q) := by omega
      rw [if_pos hgt, decide_eq_false hle]
      rfl
    · have hle : v ≤ E.otsu (readSamples E s q) := by omega
      rw [if_neg hgt, decide_eq_true hle]
      rfl

/-! ## Degenerate homographies -/

theorem readSamples_eq_of_fields {α Image QD ED : Type} [LinearOrderedField α]
    (E : Externals α Image QD ED) (s t : Stag α Image QD ED) (q : Quad α)
    (h3 : t.image = s.image) (h4 : t.codeLocs = s.codeLocs) (h5 : t.blackLocs = s.blackLocs)
    (h6 : t.whiteLocs = s.whiteLocs) : readSamples E t q = readSamples E s q := by
  simp only [readSamples, h3, h4, h5, h6]

theorem verdict_eq_of_fields {α Image QD ED : Type} [LinearOrderedField α]
    (E : Externals α Image QD ED) (s t : Stag α Image QD ED) (q : Quad α)
    (h1 : t.errorCorrection = s.errorCorrection) (h2 : t.decoder = s.decoder)
    (h3 : t.image = s.image) (h4 : t.codeLocs = s.codeLocs) (h5 : t.blackLocs = s.blackLocs)
    (h6 : t.whiteLocs = s.whiteLocs) : verdict E t q = verdict E s q := by
  simp only [verdict, readCode, readSamples, h1, h2, h3, h4, h5, h6]

theorem detectMarkers_supported_fields {α Image QD ED : Type} [LinearOrderedField α]
    (E : Externals α Image QD ED) (s : Stag α Image QD ED) (inImage : Image)
    (hch : E.channels inImage = 1 ∨ E.channels inImage = 3 ∨ E.channels inImage = 4) :
    (detectMarkers E s inImage).1 = Except.ok () ∧
    (detectMarkers E s inImage).2.errorCorrection = s.errorCorrection ∧
    (detectMarkers E s inImage).2.decoder = s.decoder ∧
    (detectMarkers E s inImage).2.image = toGrayscale E inImage ∧
    (detectMarkers E s inImage).2.codeLocs = s.codeLocs ∧
    (detectMarkers E s inImage).2.blackLocs = s.blackLocs ∧
    (detectMarkers E s inImage).2.whiteLocs = s.whiteLocs ∧
    (detectMarkers E s inImage).2.edInterface =
      (E.detectQuads s.quadDetector (toGrayscale E inImage) s.edInterface).2 ∧
    (detectMarkers E s inImage).2.markers =
      (s.markers ++ acceptedOf E { s with image := toGrayscale E inImage }
        (frameQuads E s (toGrayscale E inImage))).map
        (E.refineMarkerPose
          (E.detectQuads s.quadDetector (toGrayscale E inImage) s.edInterface).2) ∧
    (detectMarkers E s inImage).2.falseCandidates =
      s.falseCandidates ++ rejectedOf E { s with image := toGrayscale E inImage }
        (frameQuads E s (toGrayscale E inImage)) := by
  rw [detectMarkers_of_supported E s inImage hch, detectInImage_eq]
  exact ⟨rfl, rfl, rfl, rfl, rfl, rfl, rfl, rfl, rfl, rfl⟩

/-- C10 (as the code has it): `readCode` has no branch on the third homogeneous coordinate. For
a quad of the frame whose homography sends the template point of reading `j` to `(X, Y, W)` with
`W = 0`, reading `j` is the pixel read at the results of the `double` divisions `X / 0` and
`Y / 0` (each NaN for a zero numerator, a signed infinity otherwise), and the quad is routed by
the decoder's answer on the codeword so sampled like any other quad: to the false candidates when
the decoder rejects it, to the accepted markers when the decoder accepts it. -/
theorem C10_degenerate_quad_routed_by_decoder {α Image QD ED : Type} [LinearOrderedField α]
    (E : Externals α Image QD ED) (s : Stag α Image QD ED) (inImage : Image) (q : Quad α)
    (j : Nat)
    (hch : E.channels inImage = 1 ∨ E.channels inImage = 3 ∨ E.channels inImage = 4)
    (hq : q ∈ frameQuads E s (toGrayscale E inImage))
    (hj : j < 72)
    (hw : q.H.h20 * (samplePoint s j).at0 + q.H.h21 * (samplePoint s j).at1 + q.H.h22 * (samplePoint s j).at2 = 0) :
    (readSamples E (detectMarkers E s inImage).2 q)[j]? =
      some (E.readPixelSafeBilinear (detectMarkers E s inImage).2.image
        { x := if q.H.h00 * (samplePoint s j).at0 + q.H.h01 * (samplePoint s j).at1 + q.H.h02 * (samplePoint s j).at2 = 0
              then Double.nan
            else if decide (q.H.h00 * (samplePoint s j).at0 + q.H.h01 * (samplePoint s j).at1 + q.H.h02 * (samplePoint s j).at2 < 0) =
                E.signBitW q.H (samplePoint s j)
              then Double.posInf
            else Double.negInf
          y := if q.H.h10 * (samplePoint s j).at0 + q.H.h11 * (samplePoint s j).at1 + q.H.h12 * (samplePoint s j).at2 = 0
              then Double.nan
            else if decide (q.H.h10 * (samplePoint s j).at0 + q.H.h11 * (samplePoint s j).at1 + q.H.h12 * (samplePoint s j).at2 < 0) =
                E.signBitW q.H (samplePoint s j)
              then Double.posInf
            else Double.negInf } % 256) ∧
    (verdict E (detectMarkers E s inImage).2 q = none →
      q ∈ (detectMarkers E s inImage).2.falseCandidates) ∧
    (∀ id shift, verdict E (detectMarkers E s inImage).2 q = some (id, shift) →
      E.refineMarkerPose (detectMarkers E s inImage).2.edInterface
          (E.shiftCorners2 { quad := q, id := id } shift) ∈
        (detectMarkers E s inImage).2.markers) ∧
    (s.falseCandidates = [] →
      (q ∈ (detectMarkers E s inImage).2.falseCandidates ↔
        verdict E (detectMarkers E s inImage).2 q = none)) := by
  obtain ⟨-, h1, h2, h3, h4, h5, h6, hed, hmk, hfc⟩ :=
    detectMarkers_supported_fields E s inImage hch
  generalize detectMarkers E s inImage = D at h1 h2 h3 h4 h5 h6 hed hmk hfc ⊢
  have hver : verdict E D.2 q = verdict E { s with image := toGrayscale E inImage } q :=
    verdict_eq_of_fields E { s with image := toGrayscale E inImage } D.2 q h1 h2 h3 h4 h5 h6
  refine ⟨?_, ?_, ?_, ?_⟩
  · rw [readSamples_getElem? E D.2 q j hj, h4, h5, h6]
    have hp : (if j < 48 then sampleAt E D.2 q (s.codeLocs.getD j Mat31.empty)
        else if j < 60 then sampleAt E D.2 q (s.blackLocs.getD (j - 48) Mat31.empty)
        else sampleAt E D.2 q (s.whiteLocs.getD (j - 60) Mat31.empty)) =
        sampleAt E D.2 q (samplePoint s j) := by
      unfold samplePoint
      by_cases a : j < 48
      · rw [if_pos a, if_pos a]
      · by_cases b : j < 60
        · rw [if_neg a, if_neg a, if_pos b, if_pos b]
        · rw [if_neg a, if_neg a, if_neg b, if_neg b]
    rw [hp]
    simp only [sampleAt, projectPoint, Double.div, Mat33.mulVec, if_pos hw]
  · intro hv
    rw [hver] at hv
    rw [hfc]
    simp only [List.mem_append, rejectedOf, List.mem_filter]
    exact Or.inr ⟨hq, by rw [hv]; rfl⟩
  · intro id shift hv
    rw [hver] at hv
    rw [hmk, hed]
    simp only [List.mem_map, List.mem_append, acceptedOf, List.mem_filterMap]
    exact ⟨_, Or.inr ⟨q, hq, by rw [hv]; rfl⟩, rfl⟩
  · intro hf
    rw [hfc, hver, hf]
    simp only [List.nil_append, rejectedOf, List.mem_filter]
    constructor
    · rintro ⟨-, hn⟩
      exact Option.isNone_iff_eq_none.mp (by simpa using hn)
    · intro hv
      exact ⟨hq, by rw [hv]; rfl⟩

/-- Witness of C10: the zero-homography quad, found by the quad source in a 1-channel image on a
freshly constructed `Stag(15, -1)`; reading 0 (the first code point) projects to third
coordinate `0`. -/
theorem C10_degenerate_quad_routed_by_decoder_witness :
    ((stubExternals ℝ [degenerateQuad ℝ] (some (7, 0))).channels 1 = 1 ∨ (stubExternals ℝ [degenerateQuad ℝ] (some (7, 0))).channels 1 = 3 ∨ (stubExternals ℝ [degenerateQuad ℝ] (some (7, 0))).channels 1 = 4) ∧
    degenerateQuad ℝ ∈ frameQuads (stubExternals ℝ [degenerateQuad ℝ] (some (7, 0))) (stubFresh Real.cos Real.sin) (toGrayscale (stubExternals ℝ [degenerateQuad ℝ] (some (7, 0))) 1) ∧
    0 < 72 ∧
    (degenerateQuad ℝ).H.h20 * (samplePoint (stubFresh Real.cos Real.sin) 0).at0 + (degenerateQuad ℝ).H.h21 * (samplePoint (stubFresh Real.cos Real.sin) 0).at1 + (degenerateQuad ℝ).H.h22 * (samplePoint (stubFresh Real.cos Real.sin) 0).at2 = 0 ∧
    ((readSamples (stubExternals ℝ [degenerateQuad ℝ] (some (7, 0))) (detectMarkers (stubExternals ℝ [degenerateQuad ℝ] (some (7, 0))) (stubFresh Real.cos Real.sin) 1).2 (degenerateQuad ℝ))[0]? =
      some ((stubExternals ℝ [degenerateQuad ℝ] (some (7, 0))).readPixelSafeBilinear (detectMarkers (stubExternals ℝ [degenerateQuad ℝ] (some (7, 0))) (stubFresh Real.cos Real.sin) 1).2.image
        { x := if (degenerateQuad ℝ).H.h00 * (samplePoint (stubFresh Real.cos Real.sin) 0).at0 + (degenerateQuad ℝ).H.h01 * (samplePoint (stubFresh Real.cos Real.sin) 0).at1 + (degenerateQuad ℝ).H.h02 * (samplePoint (stubFresh Real.cos Real.sin) 0).at2 = 0
              then Double.nan
            else if decide ((degenerateQuad ℝ).H.h00 * (samplePoint (stubFresh Real.cos Real.sin) 0).at0 + (degenerateQuad ℝ).H.h01 * (samplePoint (stubFresh Real.cos Real.sin) 0).at1 + (degenerateQuad ℝ).H.h02 * (samplePoint (stubFresh Real.cos Real.sin) 0).at2 < 0) =
                (stubExternals ℝ [degenerateQuad ℝ] (some (7, 0))).signBitW (degenerateQuad ℝ).H (samplePoint (stubFresh Real.cos Real.sin) 0)
              then Double.posInf
            else Double.negInf
          y := if (degenerateQuad ℝ).H.h10 * (samplePoint (stubFresh Real.cos Real.sin) 0).at0 + (degenerateQuad ℝ).H.h11 * (samplePoint (stubFresh Real.cos Real.sin) 0).at1 + (degenerateQuad ℝ).H.h12 * (samplePoint (stubFresh Real.cos Real.sin) 0).at2 = 0
              then Double.nan
            else if decide ((degenerateQuad ℝ).H.h10 * (samplePoint (stubFresh Real.cos Real.sin) 0).at0 + (degenerateQuad ℝ).H.h11 * (samplePoint (stubFresh Real.cos Real.sin) 0).at1 + (degenerateQuad ℝ).H.h12 * (samplePoint (stubFresh Real.cos Real.sin) 0).at2 < 0) =
                (stubExternals ℝ [degenerateQuad ℝ] (some (7, 0))).signBitW (degenerateQuad ℝ).H (samplePoint (stubFresh Real.cos Real.sin) 0)
              then Double.posInf
            else Double.negInf } % 256) ∧
    (verdict (stubExternals ℝ [degenerateQuad ℝ] (some (7, 0))) (detectMarkers (stubExternals ℝ [degenerateQuad ℝ] (some (7, 0))) (stubFresh Real.cos Real.sin) 1).2 (degenerateQuad ℝ) = none →
      (degenerateQuad ℝ) ∈ (detectMarkers (stubExternals ℝ [degenerateQuad ℝ] (some (7, 0))) (stubFresh Real.cos Real.sin) 1).2.falseCandidates) ∧
    (∀ id shift, verdict (stubExternals ℝ [degenerateQuad ℝ] (some (7, 0))) (detectMarkers (stubExternals ℝ [degenerateQuad ℝ] (some (7, 0))) (stubFresh Real.cos Real.sin) 1).2 (degenerateQuad ℝ) = some (id, shift) →
      (stubExternals ℝ [degenerateQuad ℝ] (some (7, 0))).refineMarkerPose (detectMarkers (stubExternals ℝ [degenerateQuad ℝ] (some (7, 0))) (stubFresh Real.cos Real.sin) 1).2.edInterface
          ((stubExternals ℝ [degenerateQuad ℝ] (some (7, 0))).shiftCorners2 { quad := (degenerateQuad ℝ), id := id } shift) ∈
        (detectMarkers (stubExternals ℝ [degenerateQuad ℝ] (some (7, 0))) (stubFresh Real.cos Real.sin) 1).2.markers) ∧
    ((stubFresh Real.cos Real.sin).falseCandidates = [] →
      ((degenerateQuad ℝ) ∈ (detectMarkers (stubExternals ℝ [degenerateQuad ℝ] (some (7, 0))) (stubFresh Real.cos Real.sin) 1).2.falseCandidates ↔
        verdict (stubExternals ℝ [degenerateQuad ℝ] (some (7, 0))) (detectMarkers (stubExternals ℝ [degenerateQuad ℝ] (some (7, 0))) (stubFresh Real.cos Real.sin) 1).2 (degenerateQuad ℝ) = none))) :=
  ⟨Or.inl rfl, by simp [frameQuads, stubExternals], by decide,
   by simp [degenerateQuad],
   C10_degenerate_quad_routed_by_decoder (stubExternals ℝ [degenerateQuad ℝ] (some (7, 0))) (stubFresh Real.cos Real.sin) 1 (degenerateQuad ℝ) 0 (Or.inl rfl)
    (by simp [frameQuads, stubExternals]) (by decide) (by simp [degenerateQuad])⟩

/-- Counterexample to C10 as stated: the quad whose homography is the zero matrix sends every
template point to `(0, 0, 0)`, third coordinate `0`, so every reading is taken at
`(0 / 0, 0 / 0) = (NaN, NaN)`; with a decoder that accepts the codeword sampled for it
(identifier 7, shift 0), `detectMarkers` on a freshly constructed `Stag(15, -1)` leaves that quad
as an accepted marker and leaves no false candidate. -/
theorem C10_counterexample :
    Stag.Stag Real.cos Real.sin (stubExternals ℝ [degenerateQuad ℝ] (some (7, 0))) 15 (-1) = Except.ok (stubFresh Real.cos Real.sin) ∧
    (∀ p : Mat31 ℝ, ((degenerateQuad ℝ).H.mulVec p).at2 = 0) ∧
    (∀ (p : Mat31 ℝ) (b : Bool),
      projectPoint (degenerateQuad ℝ).H p b = { x := Double.nan, y := Double.nan }) ∧
    (stubExternals ℝ [degenerateQuad ℝ] (some (7, 0))).getQuads (detectMarkers (stubExternals ℝ [degenerateQuad ℝ] (some (7, 0))) (stubFresh Real.cos Real.sin) 1).2.quadDetector = [degenerateQuad ℝ] ∧
    (detectMarkers (stubExternals ℝ [degenerateQuad ℝ] (some (7, 0))) (stubFresh Real.cos Real.sin) 1).2.markers = [{ quad := degenerateQuad ℝ, id := 7 }] ∧
    (detectMarkers (stubExternals ℝ [degenerateQuad ℝ] (some (7, 0))) (stubFresh Real.cos Real.sin) 1).2.falseCandidates = [] ∧
    degenerateQuad ℝ ∉ (detectMarkers (stubExternals ℝ [degenerateQuad ℝ] (some (7, 0))) (stubFresh Real.cos Real.sin) 1).2.falseCandidates := by
  refine ⟨rfl, ?_, ?_, ?_, ?_, ?_, ?_⟩
  · intro p
    simp [degenerateQuad, Mat33.mulVec]
  · intro p b
    simp [projectPoint, degenerateQuad, Mat33.mulVec, Double.div]
  all_goals simp only [stub_detectMarkers_accept]
  all_goals simp [stubFresh, stubExternals]

/-! ## The geometry table over the reals -/

theorem codeRadius_bounds (k : Nat) : (0 : ℝ) ≤ codeRadius k ∧ (codeRadius k : ℝ) ≤ 0.44 := by
  by_cases hk : k < 12
  · interval_cases k <;> norm_num [codeRadius]
  · have h : codeRadius k = (0.437421957035861 : ℝ) := by
      unfold codeRadius
      split <;> first | omega | rfl
    rw [h]
    norm_num

theorem createMat_bounds (r θ : ℝ) (h0 : 0 ≤ r) (h1 : r ≤ 0.44) :
    (createMatFromPolarCoords Real.cos Real.sin r θ (0.4 * 0.9)).at2 = 1 ∧
    |(createMatFromPolarCoords Real.cos Real.sin r θ (0.4 * 0.9)).at0 - 0.5| ≤ 0.32 ∧
    |(createMatFromPolarCoords Real.cos Real.sin r θ (0.4 * 0.9)).at1 - 0.5| ≤ 0.32 := by
  have hc1 := Real.cos_le_one θ
  have hc2 := Real.neg_one_le_cos θ
  have hs1 := Real.sin_le_one θ
  have hs2 := Real.neg_one_le_sin θ
  have hk : (0.4 * 0.9 / 0.5 : ℝ) = 0.72 := by norm_num
  simp only [createMatFromPolarCoords, hk]
  refine ⟨trivial, ?_, ?_⟩
  · rw [abs_le]
    constructor <;> nlinarith
  · rw [abs_le]
    constructor <;> nlinarith

theorem mem_codeLocs {α : Type} [Field α] (cos sin : α → α) (p : Mat31 α)
    (hp : p ∈ (fillCodeLocations cos sin).codeLocs) :
    ∃ i k : Nat, i < 4 ∧ k < 12 ∧
      p = createMatFromPolarCoords cos sin (codeRadius k) (codeAngle k + (i : α) * HALF_PI)
        (0.4 * 0.9) := by
  obtain ⟨j, hj, rfl⟩ := List.getElem_of_mem hp
  have hj' : j < 48 := by
    have := codeLocs_length cos sin
    omega
  have hi : j / 12 < 4 := by omega
  have hk : j % 12 < 12 := by omega
  refine ⟨(j / 12 : ℕ), (j % 12 : ℕ), hi, hk, ?_⟩
  have h := codeLocs_getElem? cos sin (j / 12) (j % 12) hi hk
  have hidx : j % 12 + j / 12 * 12 = j := by omega
  rw [hidx, List.getElem?_eq_getElem hj] at h
  exact Option.some.inj h

/-- C8: the geometry table built by `fillCodeLocations` (over the reals) holds exactly 48 code
points, 12 inner-border (black) points and 12 outer-border (white) points, and every one of these
72 points has homogeneous coordinate 1 and both coordinates within
`[-borderDist, 1 + borderDist] = [-0.045, 1.045]`. -/
theorem C8_geometry_table_well_formed :
    (fillCodeLocations Real.cos Real.sin).codeLocs.length = 48 ∧
    (fillCodeLocations Real.cos Real.sin).blackLocs.length = 12 ∧
    (fillCodeLocations Real.cos Real.sin).whiteLocs.length = 12 ∧
    ∀ p ∈ (fillCodeLocations Real.cos Real.sin).codeLocs ++
        (fillCodeLocations Real.cos Real.sin).blackLocs ++
        (fillCodeLocations Real.cos Real.sin).whiteLocs,
      p.at2 = 1 ∧ -0.045 ≤ p.at0 ∧ p.at0 ≤ 1.045 ∧ -0.045 ≤ p.at1 ∧ p.at1 ≤ 1.045 := by
  refine ⟨codeLocs_length _ _, ?_, ?_, ?_⟩
  · rw [blackLocs_eq]; rfl
  · rw [whiteLocs_eq]; rfl
  · intro p hp
    rw [List.mem_append, List.mem_append] at hp
    rcases hp with (hp | hp) | hp
    · obtain ⟨i, k, -, -, rfl⟩ := mem_codeLocs _ _ p hp
      obtain ⟨h0, h1⟩ := codeRadius_bounds k
      obtain ⟨hw, hx, hy⟩ := createMat_bounds (codeRadius k) (codeAngle k + i * HALF_PI) h0 h1
      rw [abs_le] at hx hy
      refine ⟨hw, ?_, ?_, ?_, ?_⟩ <;> linarith [hx.1, hx.2, hy.1, hy.2]
    · rw [blackLocs_eq] at hp
      simp only [List.mem_cons, List.mem_singleton, List.not_mem_nil, or_false] at hp
      rcases hp with h | h | h | h | h | h | h | h | h | h | h | h <;> subst h <;> norm_num
    · rw [whiteLocs_eq] at hp
      simp only [List.mem_cons, List.mem_singleton, List.not_mem_nil, or_false] at hp
      rcases hp with h | h | h | h | h | h | h | h | h | h | h | h <;> subst h <;> norm_num

/-! ## Quadrants of the code points -/

theorem HALF_PI_sub_pos : (0 : ℝ) < HALF_PI - Real.pi / 2 := by
  have h := Real.pi_lt_d20
  unfold HALF_PI
  norm_num at h ⊢
  linarith

theorem HALF_PI_sub_lt : (HALF_PI : ℝ) - Real.pi / 2 < 4e-16 := by
  have h := Real.pi_gt_d20
  unfold HALF_PI
  norm_num at h ⊢
  linarith

theorem cos_HALF_PI : Real.cos HALF_PI = -Real.sin (HALF_PI - Real.pi / 2) := by
  have h : (HALF_PI : ℝ) = (HALF_PI - Real.pi / 2) + Real.pi / 2 := by ring
  conv_lhs => rw [h]
  exact Real.cos_add_pi_div_two _

theorem sin_HALF_PI : Real.sin HALF_PI = Real.cos (HALF_PI - Real.pi / 2) := by
  have h : (HALF_PI : ℝ) = (HALF_PI - Real.pi / 2) + Real.pi / 2 := by ring
  conv_lhs => rw [h]
  exact Real.sin_add_pi_div_two _

theorem cos_HALF_PI_neg : Real.cos HALF_PI < 0 := by
  rw [cos_HALF_PI]
  have hpos := HALF_PI_sub_pos
  have hlt : (HALF_PI : ℝ) - Real.pi / 2 < Real.pi := by
    have := HALF_PI_sub_lt
    have := Real.pi_gt_three
    norm_num at *
    linarith
  have := Real.sin_pos_of_pos_of_lt_pi hpos hlt
  linarith

theorem abs_cos_HALF_PI_le : |Real.cos HALF_PI| ≤ 4e-16 := by
  rw [cos_HALF_PI, abs_neg]
  have h1 := Real.abs_sin_le_abs (x := (HALF_PI : ℝ) - Real.pi / 2)
  have h2 : |(HALF_PI : ℝ) - Real.pi / 2| = HALF_PI - Real.pi / 2 :=
    abs_of_pos HALF_PI_sub_pos
  have h3 := HALF_PI_sub_lt
  linarith

theorem abs_sin_HALF_PI_sub_one_le : |Real.sin HALF_PI - 1| ≤ 4e-16 := by
  rw [sin_HALF_PI]
  have hpos := HALF_PI_sub_pos
  have hlt := HALF_PI_sub_lt
  have h1 := Real.one_sub_sq_div_two_le_cos (x := (HALF_PI : ℝ) - Real.pi / 2)
  have h2 := Real.cos_le_one ((HALF_PI : ℝ) - Real.pi / 2)
  rw [abs_le]
  norm_num at hlt ⊢
  constructor <;> nlinarith

theorem rotateBy_createMat (r θ φ c : ℝ) :
    rotateBy Real.cos Real.sin φ (createMatFromPolarCoords Real.cos Real.sin r θ c) =
      createMatFromPolarCoords Real.cos Real.sin r (θ + φ) c := by
  simp only [rotateBy, createMatFromPolarCoords, Real.cos_add, Real.sin_add, Mat31.mk.injEq]
  refine ⟨by ring, by ring, trivial⟩

theorem rotateBy_HALF_PI_near_rotate90 (p : Mat31 ℝ) (hx : |p.at0 - 0.5| ≤ 0.32)
    (hy : |p.at1 - 0.5| ≤ 0.32) :
    |(rotateBy Real.cos Real.sin HALF_PI p).at0 - (rotate90 p).at0| ≤ 1e-15 ∧
    |(rotateBy Real.cos Real.sin HALF_PI p).at1 - (rotate90 p).at1| ≤ 1e-15 := by
  have hc := abs_cos_HALF_PI_le
  have hs := abs_sin_HALF_PI_sub_one_le
  have e0 : (rotateBy Real.cos Real.sin HALF_PI p).at0 - (rotate90 p).at0 =
      Real.cos HALF_PI * (p.at0 - 0.5) + (Real.sin HALF_PI - 1) * (p.at1 - 0.5) := by
    simp only [rotateBy, rotate90]; ring
  have e1 : (rotateBy Real.cos Real.sin HALF_PI p).at1 - (rotate90 p).at1 =
      -(Real.sin HALF_PI - 1) * (p.at0 - 0.5) + Real.cos HALF_PI * (p.at1 - 0.5) := by
    simp only [rotateBy, rotate90]; ring
  have m1 : |Real.cos HALF_PI * (p.at0 - 0.5)| ≤ 4e-16 * 0.32 := by
    rw [abs_mul]; exact mul_le_mul hc hx (abs_nonneg _) (by norm_num)
  have m2 : |(Real.sin HALF_PI - 1) * (p.at1 - 0.5)| ≤ 4e-16 * 0.32 := by
    rw [abs_mul]; exact mul_le_mul hs hy (abs_nonneg _) (by norm_num)
  have m3 : |-(Real.sin HALF_PI - 1) * (p.at0 - 0.5)| ≤ 4e-16 * 0.32 := by
    rw [abs_mul, abs_neg]; exact mul_le_mul hs hx (abs_nonneg _) (by norm_num)
  have m4 : |Real.cos HALF_PI * (p.at1 - 0.5)| ≤ 4e-16 * 0.32 := by
    rw [abs_mul]; exact mul_le_mul hc hy (abs_nonneg _) (by norm_num)
  rw [e0, e1]
  constructor
  · refine (abs_add _ _).trans ?_
    norm_num at m1 m2 ⊢
    linarith
  · refine (abs_add _ _).trans ?_
    norm_num at m3 m4 ⊢
    linarith

/-- C7 (as the code has it): in the table built by `fillCodeLocations`, read over the reals,
each quadrant of 12 code points is the image of the one before it under the rotation about
`(0.5, 0.5)` by the angle `HALF_PI = 1.570796326794897`: for `i` in `{0,1,2}` and `k` in
`0..11`, `codeLocs[k + 12(i+1)]` is `codeLocs[k + 12i]` rotated by `HALF_PI`. That angle exceeds
the quarter turn `π/2` by less than `4·10⁻¹⁶`, so each coordinate of `codeLocs[k + 12(i+1)]` is
within `10⁻¹⁵` of the quarter-turn image `(x, y) ↦ (y, 1 - x)` of `codeLocs[k + 12i]`. -/
theorem C7_quadrants_rotated_by_HALF_PI :
    (∀ (i : Fin 3) (k : Fin 12), ∃ p p' : Mat31 ℝ,
      (fillCodeLocations Real.cos Real.sin).codeLocs[(k : Nat) + 12 * (i : Nat)]? = some p ∧
      (fillCodeLocations Real.cos Real.sin).codeLocs[(k : Nat) + 12 * ((i : Nat) + 1)]? =
        some p' ∧
      p' = rotateBy Real.cos Real.sin HALF_PI p ∧
      |p'.at0 - (rotate90 p).at0| ≤ 1e-15 ∧
      |p'.at1 - (rotate90 p).at1| ≤ 1e-15 ∧
      p'.at2 = (rotate90 p).at2) ∧
    (0 : ℝ) < HALF_PI - Real.pi / 2 ∧ (HALF_PI : ℝ) - Real.pi / 2 < 4e-16 := by
  refine ⟨?_, HALF_PI_sub_pos, HALF_PI_sub_lt⟩
  intro i k
  have hi : (i : Nat) < 4 := by omega
  have hi' : (i : Nat) + 1 < 4 := by omega
  have h0 := codeLocs_getElem? Real.cos Real.sin (i : Nat) (k : Nat) hi k.isLt
  have h1 := codeLocs_getElem? Real.cos Real.sin ((i : Nat) + 1) (k : Nat) hi' k.isLt
  rw [Nat.mul_comm] at h0 h1
  refine ⟨_, _, h0, h1, ?_, ?_⟩
  · rw [rotateBy_createMat]
    congr 1
    push_cast
    ring
  · have hrot : createMatFromPolarCoords Real.cos Real.sin (codeRadius (k : Nat))
        (codeAngle (k : Nat) + (((i : Nat) + 1 : Nat) : ℝ) * HALF_PI) (0.4 * 0.9) =
        rotateBy Real.cos Real.sin HALF_PI
          (createMatFromPolarCoords Real.cos Real.sin (codeRadius (k : Nat))
            (codeAngle (k : Nat) + ((i : Nat) : ℝ) * HALF_PI) (0.4 * 0.9)) := by
      rw [rotateBy_createMat]
      congr 1
      push_cast
      ring
    obtain ⟨r0, r1⟩ := codeRadius_bounds (k : Nat)
    obtain ⟨hw, hx, hy⟩ := createMat_bounds (codeRadius (k : Nat))
      (codeAngle (k : Nat) + ((i : Nat) : ℝ) * HALF_PI) r0 r1
    obtain ⟨a, b⟩ := rotateBy_HALF_PI_near_rotate90 _ hx hy
    rw [hrot]
    exact ⟨a, b, rfl⟩

/-- Counterexample to C7 as stated: over the reals `codeLocs[12]` (quadrant 1, `k = 0`) is not
the image of `codeLocs[0]` (quadrant 0, `k = 0`) under the quarter turn `(x, y) ↦ (y, 1 - x)`,
because `HALF_PI = 1.570796326794897` is not `π/2`. -/
theorem C7_counterexample :
    (fillCodeLocations Real.cos Real.sin).codeLocs[0 + 12 * (0 + 1)]? ≠
      ((fillCodeLocations Real.cos Real.sin).codeLocs[0 + 12 * 0]?).map rotate90 := by
  have h0 := codeLocs_getElem? Real.cos Real.sin 0 0 (by decide) (by decide)
  have h1 := codeLocs_getElem? Real.cos Real.sin 1 0 (by decide) (by decide)
  rw [show 0 + 12 * (0 + 1) = 0 + 1 * 12 from rfl, show 0 + 12 * 0 = 0 + 0 * 12 from rfl, h0, h1]
  intro h
  simp only [Option.map_some', Option.some.injEq, createMatFromPolarCoords, rotate90,
    Mat31.mk.injEq, codeRadius, codeAngle] at h
  obtain ⟨hx, hy, -⟩ := h
  have hcos := cos_HALF_PI_neg
  have hadd : Real.cos HALF_PI =
      Real.cos (0.785398163397448 + ((1 : ℕ) : ℝ) * HALF_PI) *
          Real.cos (0.785398163397448 + ((0 : ℕ) : ℝ) * HALF_PI) +
        Real.sin (0.785398163397448 + ((1 : ℕ) : ℝ) * HALF_PI) *
          Real.sin (0.785398163397448 + ((0 : ℕ) : ℝ) * HALF_PI) := by
    rw [← Real.cos_sub]
    congr 1
    push_cast
    ring
  have hk : (0.088363142525988 * (0.4 * 0.9 / 0.5) : ℝ) ≠ 0 := by norm_num
  have ex : Real.cos (0.785398163397448 + ((1 : ℕ) : ℝ) * HALF_PI) =
      -Real.sin (0.785398163397448 + ((0 : ℕ) : ℝ) * HALF_PI) := by
    have : (Real.cos (0.785398163397448 + ((1 : ℕ) : ℝ) * HALF_PI) +
        Real.sin (0.785398163397448 + ((0 : ℕ) : ℝ) * HALF_PI)) *
        (0.088363142525988 * (0.4 * 0.9 / 0.5)) = 0 := by linarith
    rcases mul_eq_zero.mp this with h' | h'
    · linarith
    · exact absurd h' hk
  have ey : Real.sin (0.785398163397448 + ((1 : ℕ) : ℝ) * HALF_PI) =
      Real.cos (0.785398163397448 + ((0 : ℕ) : ℝ) * HALF_PI) := by
    have : (Real.sin (0.785398163397448 + ((1 : ℕ) : ℝ) * HALF_PI) -
        Real.cos (0.785398163397448 + ((0 : ℕ) : ℝ) * HALF_PI)) *
        (0.088363142525988 * (0.4 * 0.9 / 0.5)) = 0 := by linarith
    rcases mul_eq_zero.mp this with h' | h'
    · linarith
    · exact absurd h' hk
  rw [ex, ey] at hadd
  have : Real.cos HALF_PI = 0 := by rw [hadd]; ring
  linarith

end STag
